import Mathlib

/-
  Verification of the football-arena simulation core.

  Shallow embedding of src/lib/gameLogic.ts and src/lib/gameActions.ts.
  Coordinates, velocities and speeds are modelled as rationals; the source
  uses IEEE doubles.  Math.sqrt is modelled by sqrtQ, a rational
  approximation that is exact on squares of rationals (the floating-point
  source is likewise approximate); none of the verified claims depends on
  the value of a square root of a non-square.  Timestamps are naturals
  (the source uses Date.now() milliseconds).
-/

namespace Arena

attribute [local semireducible] Rat.add Rat.mul Rat.sub Rat.inv Rat.ofScientific

/-- Modelled from the spec: the repository's types/game.ts (which defines
GAME_CONFIG) is not included in the sources; the values below follow the
copy embedded in GAME_FIX_SUMMARY.md together with the v1.2.0/v1.2.2
updates recorded in MOVEMENT_SYSTEM.md and the changelog (player speed
20 with range 5..50, pass speed 12 with range 5..20, shoot speed 25 with
range 10..40). -/
def FIELD_WIDTH : ℚ := 1200

def FIELD_HEIGHT : ℚ := 800

def GOAL_WIDTH : ℚ := 150

def PLAYER_RADIUS : ℚ := 15

def BALL_RADIUS : ℚ := 8

def PLAYER_SPEED : ℚ := 20

def MIN_PLAYER_SPEED : ℚ := 5

def MAX_PLAYER_SPEED : ℚ := 50

def BALL_FRICTION : ℚ := 95 / 100

def PASS_SPEED : ℚ := 12

def MIN_PASS_SPEED : ℚ := 5

def MAX_PASS_SPEED : ℚ := 20

def SHOOT_SPEED : ℚ := 25

def MIN_SHOOT_SPEED : ℚ := 10

def MAX_SHOOT_SPEED : ℚ := 40

def POSSESSION_DISTANCE : ℚ := 25

def TACKLE_DISTANCE : ℚ := 30

def MOVE_COOLDOWN : ℕ := 100

def PASS_COOLDOWN : ℕ := 500

def SHOOT_COOLDOWN : ℕ := 1000

def TACKLE_COOLDOWN : ℕ := 2000

def COUNTDOWN_DURATION : ℕ := 3000

def SIMULATION_STEP : ℕ := 50

/-- Newton iteration for the integer square root, on fuel (structural
recursion, so that kernel reduction can evaluate it). -/
def sqrtIter : ℕ → ℕ → ℕ → ℕ
  | 0, _, x => x
  | fuel + 1, n, x =>
    let next := (x + n / x) / 2
    if next < x then sqrtIter fuel n next else x

/-- Integer square root (floor); agrees with Nat.sqrt. -/
def isqrt (n : ℕ) : ℕ := if n ≤ 1 then n else sqrtIter n n (n / 2 + 1)

/-- Rational stand-in for Math.sqrt: exact on squares of nonnegative
rationals, a floor approximation elsewhere (nonpositive inputs map to 0,
as the source never applies sqrt to a negative number). -/
def sqrtQ (q : ℚ) : ℚ :=
  if q ≤ 0 then 0 else (isqrt (q.num.toNat * q.den) : ℚ) / (q.den : ℚ)

/-- Math.max(lo, Math.min(hi, v)) — the clamping pattern of the source. -/
def clamp (lo hi v : ℚ) : ℚ := max lo (min hi v)

/-- JavaScript a || b for an optional number a (0 is falsy). -/
def jsOrQ (a : Option ℚ) (b : ℚ) : ℚ :=
  match a with
  | some s => if s = 0 then b else s
  | none => b

/-- JavaScript a || b for an optional natural (0 is falsy). -/
def jsOrN (a : Option ℕ) (b : ℕ) : ℕ :=
  match a with
  | some n => if n = 0 then b else n
  | none => b

/-- Math.round: round half toward positive infinity. -/
def jsRound (q : ℚ) : ℤ := ⌊q + 1 / 2⌋

structure Position where
  x : ℚ
  y : ℚ
deriving DecidableEq

structure Velocity where
  vx : ℚ
  vy : ℚ
deriving DecidableEq

inductive TeamId
  | A
  | B
deriving DecidableEq

inductive PlayerRole
  | goalkeeper
  | defender
  | midfielder
  | striker
deriving DecidableEq, BEq

inductive GameStatus
  | waiting
  | countdown
  | playing
  | finished
deriving DecidableEq

structure Stats where
  goals : ℕ
  assists : ℕ
  passes : ℕ
  tackles : ℕ
deriving DecidableEq

structure Player where
  id : String
  name : String
  team : TeamId
  role : PlayerRole
  position : Position
  targetPosition : Option Position
  speed : Option ℚ
  hasBall : Bool
  lastActionTime : Option ℕ
  stats : Stats
deriving DecidableEq

structure Ball where
  position : Position
  velocity : Velocity
  possessionPlayerId : Option String
  lastTouchPlayerId : Option String
deriving DecidableEq

structure Score where
  teamA : ℕ
  teamB : ℕ
deriving DecidableEq

structure GameConfig where
  playersPerTeam : ℕ
  goalsToWin : ℕ
deriving DecidableEq

structure GameState where
  gameId : String
  status : GameStatus
  config : GameConfig
  teamA : List Player
  teamB : List Player
  ball : Ball
  score : Score
  winner : Option TeamId
  createdAt : ℕ
  startedAt : Option ℕ
  finishedAt : Option ℕ
  lastUpdate : ℕ
  version : ℕ
  countdownStartTime : Option ℕ
deriving DecidableEq

/-- gameLogic.ts distance: Math.sqrt((p1.x-p2.x)**2 + (p1.y-p2.y)**2). -/
def distance (p1 p2 : Position) : ℚ :=
  sqrtQ ((p1.x - p2.x) ^ 2 + (p1.y - p2.y) ^ 2)

/-- One iteration of the player-locomotion loop of simulate (gameLogic.ts
lines 47-81): returns the updated player, the updated ball (the ball moves
with a dribbling possessor), and whether this player changed the state. -/
def movePlayerStep (ball : Ball) (p : Player) : Player × Ball × Bool :=
  match p.targetPosition with
  | none => (p, ball, false)
  | some t =>
    let dx := t.x - p.position.x
    let dy := t.y - p.position.y
    let dist := sqrtQ (dx * dx + dy * dy)
    if dist > 1 / 2 then
      let playerSpeed := jsOrQ p.speed PLAYER_SPEED
      let moveAmount := min playerSpeed dist
      let nx := clamp PLAYER_RADIUS (FIELD_WIDTH - PLAYER_RADIUS) (p.position.x + dx / dist * moveAmount)
      let ny := clamp PLAYER_RADIUS (FIELD_HEIGHT - PLAYER_RADIUS) (p.position.y + dy / dist * moveAmount)
      let p2 := { p with position := ⟨nx, ny⟩ }
      if p.hasBall = true ∧ ball.possessionPlayerId = some p.id then
        (p2, { ball with position := p2.position }, true)
      else
        (p2, ball, true)
    else
      ({ p with targetPosition := none }, ball, true)

/-- The locomotion loop over [...teamA, ...teamB]. -/
def moveLoop (ball : Ball) : List Player → List Player × Ball × Bool
  | [] => ([], ball, false)
  | p :: ps =>
    let r := movePlayerStep ball p
    let rest := moveLoop r.2.1 ps
    (r.1 :: rest.1, rest.2.1, r.2.2 || rest.2.2)

/-- Free-ball physics (gameLogic.ts lines 84-99): integrate velocity, apply
friction, snap a slow ball to rest, clamp into bounds. -/
def stepFreeBall (b : Ball) : Ball :=
  let px := b.position.x + b.velocity.vx
  let py := b.position.y + b.velocity.vy
  let vx := b.velocity.vx * BALL_FRICTION
  let vy := b.velocity.vy * BALL_FRICTION
  let v : Velocity := if |vx| < 1 / 10 ∧ |vy| < 1 / 10 then ⟨0, 0⟩ else ⟨vx, vy⟩
  { b with
    position :=
      ⟨clamp BALL_RADIUS (FIELD_WIDTH - BALL_RADIUS) px,
       clamp BALL_RADIUS (FIELD_HEIGHT - BALL_RADIUS) py⟩,
    velocity := v }

/-- resetBall (gameLogic.ts lines 189-204): ball to center, zero velocity,
no possessor, every player's hasBall cleared. -/
def resetBall (s : GameState) : GameState :=
  { s with
    ball :=
      { s.ball with
        position := ⟨FIELD_WIDTH / 2, FIELD_HEIGHT / 2⟩,
        velocity := ⟨0, 0⟩,
        possessionPlayerId := none },
    teamA := s.teamA.map (fun p => { p with hasBall := false }),
    teamB := s.teamB.map (fun p => { p with hasBall := false }) }

/-- Credit stats.goals on the first player of the list with the given id
(the source finds the scorer by id and increments in place). -/
def creditGoal : List Player → String → List Player
  | [], _ => []
  | p :: ps, pid =>
    if p.id = pid then
      { p with stats := { p.stats with goals := p.stats.goals + 1 } } :: ps
    else
      p :: creditGoal ps pid

/-- Left-goal detection (gameLogic.ts lines 108-129): team B scores. -/
def goalCheckA (s : GameState) (now : ℕ) : GameState × Bool :=
  if s.ball.position.x ≤ BALL_RADIUS ∧
      FIELD_HEIGHT / 2 - GOAL_WIDTH / 2 ≤ s.ball.position.y ∧
      s.ball.position.y ≤ FIELD_HEIGHT / 2 + GOAL_WIDTH / 2 then
    let s1 := { s with score := { s.score with teamB := s.score.teamB + 1 } }
    let s2 :=
      match s1.ball.lastTouchPlayerId with
      | some pid => { s1 with teamB := creditGoal s1.teamB pid }
      | none => s1
    let s3 := resetBall s2
    let s4 :=
      if s3.score.teamB ≥ s3.config.goalsToWin then
        { s3 with status := GameStatus.finished, winner := some TeamId.B, finishedAt := some now }
      else s3
    (s4, true)
  else (s, false)

/-- Right-goal detection (gameLogic.ts lines 131-152): team A scores. -/
def goalCheckB (s : GameState) (now : ℕ) : GameState × Bool :=
  if FIELD_WIDTH - BALL_RADIUS ≤ s.ball.position.x ∧
      FIELD_HEIGHT / 2 - GOAL_WIDTH / 2 ≤ s.ball.position.y ∧
      s.ball.position.y ≤ FIELD_HEIGHT / 2 + GOAL_WIDTH / 2 then
    let s1 := { s with score := { s.score with teamA := s.score.teamA + 1 } }
    let s2 :=
      match s1.ball.lastTouchPlayerId with
      | some pid => { s1 with teamA := creditGoal s1.teamA pid }
      | none => s1
    let s3 := resetBall s2
    let s4 :=
      if s3.score.teamA ≥ s3.config.goalsToWin then
        { s3 with status := GameStatus.finished, winner := some TeamId.A, finishedAt := some now }
      else s3
    (s4, true)
  else (s, false)

/-- Possession-claim loop (gameLogic.ts lines 154-169): the first player
within POSSESSION_DISTANCE of the free ball claims it. -/
def possessionLoop (ball : Ball) : List Player → List Player × Ball × Bool
  | [] => ([], ball, false)
  | p :: ps =>
    if distance p.position ball.position ≤ POSSESSION_DISTANCE then
      ({ p with hasBall := true } :: ps,
       { ball with
         possessionPlayerId := some p.id,
         lastTouchPlayerId := some p.id,
         velocity := ⟨0, 0⟩ },
       true)
    else
      let rest := possessionLoop ball ps
      (p :: rest.1, rest.2.1, rest.2.2)

/-- Possessed-ball follow (gameLogic.ts lines 170-178). -/
def followPossessor (s : GameState) : GameState :=
  match (s.teamA ++ s.teamB).find? (fun p => some p.id = s.ball.possessionPlayerId) with
  | some q => { s with ball := { s.ball with position := q.position } }
  | none => s

/-- Countdown stage of simulate (gameLogic.ts lines 34-42). -/
def tickCountdown (s : GameState) (now : ℕ) : GameState × Bool :=
  match s.status, s.countdownStartTime with
  | GameStatus.countdown, some c =>
    if (COUNTDOWN_DURATION : ℤ) ≤ (now : ℤ) - (c : ℤ) then
      ({ s with status := GameStatus.playing, startedAt := some now, countdownStartTime := none },
       true)
    else (s, false)
  | _, _ => (s, false)

/-- The locomotion stage applied to a world record: run moveLoop over
[...teamA, ...teamB] and split the updated players back into the rosters
(mutation in place in the source). -/
def applyMove (s : GameState) : GameState × Bool :=
  let ml := moveLoop s.ball (s.teamA ++ s.teamB)
  ({ s with
      teamA := ml.1.take s.teamA.length,
      teamB := ml.1.drop s.teamA.length,
      ball := ml.2.1 },
   ml.2.2)

/-- The free-ball stages of the tick: ball physics, the two goal checks,
and the possession-claim loop.  The bare physics integration does not set
the stateChanged flag in the source (only goals and claims do). -/
def applyFree (s : GameState) (now : ℕ) : GameState × Bool :=
  let s3 := { s with ball := stepFreeBall s.ball }
  let g1 := goalCheckA s3 now
  let g2 := goalCheckB g1.1 now
  let pl := possessionLoop g2.1.ball (g2.1.teamA ++ g2.1.teamB)
  ({ g2.1 with
      teamA := pl.1.take g2.1.teamA.length,
      teamB := pl.1.drop g2.1.teamA.length,
      ball := pl.2.1 },
   g1.2 || g2.2 || pl.2.2)

/-- The playing-status body of simulate (gameLogic.ts lines 44-183):
locomotion, then free-ball physics with goal detection and possession
arbitration (or possessed-ball follow), then the version bump.  changed0
is the stateChanged flag accumulated by the countdown stage. -/
def tickPhysics (s : GameState) (now : ℕ) (changed0 : Bool) : GameState × Bool :=
  let mv := applyMove s
  let pr :=
    match mv.1.ball.possessionPlayerId with
    | none =>
      let f := applyFree mv.1 now
      (f.1, changed0 || mv.2 || f.2)
    | some _ => (followPossessor mv.1, changed0 || mv.2)
  (if pr.2 = true then { pr.1 with version := pr.1.version + 1 } else pr.1, pr.2)

/-- simulate (gameLogic.ts lines 27-187).  Returns the updated world
record and the stateChanged flag.  If less than one SIMULATION_STEP has
elapsed since lastUpdate the call returns unchanged; otherwise it runs
exactly one tick and stamps lastUpdate := now. -/
def simulate (s : GameState) (now : ℕ) : GameState × Bool :=
  if (now : ℤ) - (s.lastUpdate : ℤ) < (SIMULATION_STEP : ℤ) then (s, false)
  else
    let cd := tickCountdown s now
    let res :=
      if cd.1.status = GameStatus.playing then tickPhysics cd.1 now cd.2 else cd
    ({ res.1 with lastUpdate := now }, res.2)

/-- Lookup in [...teamA, ...teamB] by player id, as every handler does. -/
def findPlayer (s : GameState) (pid : String) : Option Player :=
  (s.teamA ++ s.teamB).find? (fun p => p.id = pid)

/-- Update the first player of the list with the given id (the handlers
mutate the object returned by find in place). -/
def updateFirst (pid : String) (f : Player → Player) : List Player → List Player × Bool
  | [] => ([], false)
  | p :: ps =>
    if p.id = pid then (f p :: ps, true)
    else
      let r := updateFirst pid f ps
      (p :: r.1, r.2)

/-- Apply updateFirst across the concatenated rosters and split the result
back into the two team arrays (updateFirst preserves length). -/
def updatePlayer (s : GameState) (pid : String) (f : Player → Player) : GameState :=
  let ps := (updateFirst pid f (s.teamA ++ s.teamB)).1
  { s with teamA := ps.take s.teamA.length, teamB := ps.drop s.teamA.length }

/-- player.lastActionTime && now - player.lastActionTime < cooldown
(0 is falsy in JavaScript, hence the t = 0 case). -/
def cooldownActive (p : Player) (now : ℕ) (cooldown : ℕ) : Bool :=
  match p.lastActionTime with
  | some t => if t = 0 then false else decide ((now : ℤ) - (t : ℤ) < (cooldown : ℤ))
  | none => false

/-- Result of the move handler.  Failure messages follow the source
(apostrophes elided). -/
inductive MoveRes
  | failure (msg : String)
  | success (position : Position) (targetPosition : Position) (dist : ℤ) (speed : ℚ)
deriving DecidableEq

/-- Result of the pass and shoot handlers. -/
inductive BallActionRes
  | failure (msg : String)
  | success (ballVelocity : Velocity) (speed : ℚ)
deriving DecidableEq

/-- Result of the tackle handler. -/
inductive TackleRes
  | failure (msg : String)
  | success (tackleSuccess : Bool) (ballIsFree : Bool)
deriving DecidableEq

def MoveRes.isFail : MoveRes → Bool
  | .failure _ => true
  | .success _ _ _ _ => false

def BallActionRes.isFail : BallActionRes → Bool
  | .failure _ => true
  | .success _ _ => false

def TackleRes.isFail : TackleRes → Bool
  | .failure _ => true
  | .success _ _ => false

/-- Tail of movePlayer (gameActions.ts lines 45-92) after the optional
speed assignment: clamp the target, reject a target closer than 1 unit,
set targetPosition and lastActionTime, bump version, save. -/
def moveFinish (g : GameState) (player : Player) (playerId : String) (targetX targetY : ℚ)
    (now : ℕ) : GameState × Bool × MoveRes :=
  let clampedX := clamp PLAYER_RADIUS (FIELD_WIDTH - PLAYER_RADIUS) targetX
  let clampedY := clamp PLAYER_RADIUS (FIELD_HEIGHT - PLAYER_RADIUS) targetY
  let dx := clampedX - player.position.x
  let dy := clampedY - player.position.y
  let dist := sqrtQ (dx * dx + dy * dy)
  if dist < 1 then (g, false, MoveRes.failure "Already at target position")
  else
    let g1 := updatePlayer g playerId
      (fun p => { p with targetPosition := some ⟨clampedX, clampedY⟩, lastActionTime := some now })
    let g2 := { g1 with version := g1.version + 1 }
    (g2, true,
     MoveRes.success player.position ⟨clampedX, clampedY⟩ (jsRound dist)
       (jsOrQ player.speed PLAYER_SPEED))

/-- movePlayer (gameActions.ts lines 9-93), modelled on the loaded world
record.  Returns the final in-memory state, whether game.save() was
reached, and the response.  The persisted record is the final state only
when save was reached (persistIf below). -/
def movePlayerRun (g : GameState) (playerId : String) (targetX targetY : ℚ)
    (speed : Option ℚ) (now : ℕ) : GameState × Bool × MoveRes :=
  if g.status ≠ GameStatus.playing then (g, false, MoveRes.failure "Game not in progress")
  else
    let g1 := (simulate g now).1
    match findPlayer g1 playerId with
    | none => (g1, false, MoveRes.failure "Player not found")
    | some player =>
      if cooldownActive player now MOVE_COOLDOWN = true then
        (g1, false, MoveRes.failure "Move cooldown active")
      else
        match speed with
        | some sp =>
          if sp < MIN_PLAYER_SPEED then (g1, false, MoveRes.failure "Speed too low. Minimum: 5")
          else if sp > MAX_PLAYER_SPEED then
            (g1, false, MoveRes.failure "Speed too high. Maximum: 50")
          else
            moveFinish (updatePlayer g1 playerId (fun p => { p with speed := some sp }))
              { player with speed := some sp } playerId targetX targetY now
        | none => moveFinish g1 player playerId targetX targetY now

/-- Tail of passBall after validation: aim the ball at the target (only
when the distance is nonzero), release possession, credit the pass,
stamp the cooldown, bump version, save. -/
def passFinish (g1 : GameState) (playerId : String) (player targetPlayer : Player)
    (passSpeed : ℚ) (now : ℕ) : GameState × Bool × BallActionRes :=
  let dx := targetPlayer.position.x - player.position.x
  let dy := targetPlayer.position.y - player.position.y
  let dist := sqrtQ (dx * dx + dy * dy)
  let ball1 :=
    if dist > 0 then
      { g1.ball with velocity := ⟨dx / dist * passSpeed, dy / dist * passSpeed⟩ }
    else g1.ball
  let g2 := { g1 with ball := { ball1 with possessionPlayerId := none } }
  let g3 := updatePlayer g2 playerId
    (fun p =>
      { p with
        hasBall := false,
        stats := { p.stats with passes := p.stats.passes + 1 },
        lastActionTime := some now })
  let g4 := { g3 with version := g3.version + 1 }
  (g4, true, BallActionRes.success g4.ball.velocity passSpeed)

/-- passBall (gameActions.ts lines 98-181). -/
def passBallRun (g : GameState) (playerId targetPlayerId : String) (speed : Option ℚ)
    (now : ℕ) : GameState × Bool × BallActionRes :=
  if g.status ≠ GameStatus.playing then (g, false, BallActionRes.failure "Game not in progress")
  else
    let g1 := (simulate g now).1
    match findPlayer g1 playerId with
    | none => (g1, false, BallActionRes.failure "Player not found")
    | some player =>
      if player.hasBall = false ∨ g1.ball.possessionPlayerId ≠ some playerId then
        (g1, false, BallActionRes.failure "Player does not have the ball")
      else if cooldownActive player now PASS_COOLDOWN = true then
        (g1, false, BallActionRes.failure "Pass cooldown active")
      else
        match findPlayer g1 targetPlayerId with
        | none => (g1, false, BallActionRes.failure "Target player not found")
        | some targetPlayer =>
          if targetPlayer.team ≠ player.team then
            (g1, false, BallActionRes.failure "Cannot pass to opponent")
          else
            match speed with
            | some sp =>
              if sp < MIN_PASS_SPEED then
                (g1, false, BallActionRes.failure "Speed too low. Minimum: 5")
              else if sp > MAX_PASS_SPEED then
                (g1, false, BallActionRes.failure "Speed too high. Maximum: 20")
              else passFinish g1 playerId player targetPlayer sp now
            | none => passFinish g1 playerId player targetPlayer PASS_SPEED now

/-- Tail of shoot after validation: aim at the goal-mouth center of the
opposing end, release possession, stamp the cooldown, bump version, save. -/
def shootFinish (g1 : GameState) (playerId : String) (player : Player) (shootSpeed : ℚ)
    (now : ℕ) : GameState × Bool × BallActionRes :=
  let targetGoalX := if player.team = TeamId.A then FIELD_WIDTH else 0
  let targetGoalY := FIELD_HEIGHT / 2
  let dx := targetGoalX - player.position.x
  let dy := targetGoalY - player.position.y
  let dist := sqrtQ (dx * dx + dy * dy)
  let ball1 :=
    if dist > 0 then
      { g1.ball with velocity := ⟨dx / dist * shootSpeed, dy / dist * shootSpeed⟩ }
    else g1.ball
  let g2 := { g1 with ball := { ball1 with possessionPlayerId := none } }
  let g3 := updatePlayer g2 playerId
    (fun p => { p with hasBall := false, lastActionTime := some now })
  let g4 := { g3 with version := g3.version + 1 }
  (g4, true, BallActionRes.success g4.ball.velocity shootSpeed)

/-- shoot (gameActions.ts lines 186-264). -/
def shootRun (g : GameState) (playerId : String) (speed : Option ℚ) (now : ℕ) :
    GameState × Bool × BallActionRes :=
  if g.status ≠ GameStatus.playing then (g, false, BallActionRes.failure "Game not in progress")
  else
    let g1 := (simulate g now).1
    match findPlayer g1 playerId with
    | none => (g1, false, BallActionRes.failure "Player not found")
    | some player =>
      if player.hasBall = false ∨ g1.ball.possessionPlayerId ≠ some playerId then
        (g1, false, BallActionRes.failure "Player does not have the ball")
      else if cooldownActive player now SHOOT_COOLDOWN = true then
        (g1, false, BallActionRes.failure "Shoot cooldown active")
      else
        match speed with
        | some sp =>
          if sp < MIN_SHOOT_SPEED then
            (g1, false, BallActionRes.failure "Speed too low. Minimum: 10")
          else if sp > MAX_SHOOT_SPEED then
            (g1, false, BallActionRes.failure "Speed too high. Maximum: 40")
          else shootFinish g1 playerId player sp now
        | none => shootFinish g1 playerId player SHOOT_SPEED now

/-- tackle (gameActions.ts lines 269-347).  The Math.random() draw against
TACKLE_SUCCESS_RATE is the rnd parameter; the random bounce direction
(cos and sin of a random angle) is the (dirX, dirY) parameter pair. -/
def tackleRun (g : GameState) (playerId targetPlayerId : String) (rnd : Bool)
    (dirX dirY : ℚ) (now : ℕ) : GameState × Bool × TackleRes :=
  if g.status ≠ GameStatus.playing then (g, false, TackleRes.failure "Game not in progress")
  else
    let g1 := (simulate g now).1
    match findPlayer g1 playerId with
    | none => (g1, false, TackleRes.failure "Player not found")
    | some player =>
      if cooldownActive player now TACKLE_COOLDOWN = true then
        (g1, false, TackleRes.failure "Tackle cooldown active")
      else
        match findPlayer g1 targetPlayerId with
        | none => (g1, false, TackleRes.failure "Target player not found")
        | some targetPlayer =>
          if targetPlayer.team = player.team then
            (g1, false, TackleRes.failure "Cannot tackle teammate")
          else if targetPlayer.hasBall = false then
            (g1, false, TackleRes.failure "Target does not have the ball")
          else if distance player.position targetPlayer.position > TACKLE_DISTANCE then
            (g1, false, TackleRes.failure "Too far to tackle")
          else
            let g2 :=
              if rnd = true then
                let ga := { g1 with
                  ball := { g1.ball with
                    possessionPlayerId := none,
                    velocity := ⟨dirX * 2, dirY * 2⟩ } }
                let gb := updatePlayer ga targetPlayerId (fun p => { p with hasBall := false })
                updatePlayer gb playerId
                  (fun p => { p with stats := { p.stats with tackles := p.stats.tackles + 1 } })
              else g1
            let g3 := updatePlayer g2 playerId (fun p => { p with lastActionTime := some now })
            let g4 := { g3 with version := g3.version + 1 }
            (g4, true, TackleRes.success rnd rnd)

/-- The record the store holds after a handler call: the handler's final
in-memory state when game.save() was reached, the untouched stored record
otherwise. -/
def persistIf (g : GameState) (r : GameState × Bool) : GameState :=
  if r.2 = true then r.1 else g

def movePlayerPersisted (g : GameState) (playerId : String) (targetX targetY : ℚ)
    (speed : Option ℚ) (now : ℕ) : GameState :=
  let r := movePlayerRun g playerId targetX targetY speed now
  persistIf g (r.1, r.2.1)

def passBallPersisted (g : GameState) (playerId targetPlayerId : String) (speed : Option ℚ)
    (now : ℕ) : GameState :=
  let r := passBallRun g playerId targetPlayerId speed now
  persistIf g (r.1, r.2.1)

def shootPersisted (g : GameState) (playerId : String) (speed : Option ℚ) (now : ℕ) :
    GameState :=
  let r := shootRun g playerId speed now
  persistIf g (r.1, r.2.1)

def tacklePersisted (g : GameState) (playerId targetPlayerId : String) (rnd : Bool)
    (dirX dirY : ℚ) (now : ℕ) : GameState :=
  let r := tackleRun g playerId targetPlayerId rnd dirX dirY now
  persistIf g (r.1, r.2.1)

/-- getInitialPosition (gameLogic.ts lines 207-233). -/
def getInitialPosition (role : PlayerRole) (team : TeamId) (teamSize : ℕ) : Position :=
  let centerY : ℚ := FIELD_HEIGHT / 2
  match role with
  | PlayerRole.goalkeeper =>
    ⟨if team = TeamId.A then 50 else FIELD_WIDTH - 50, centerY⟩
  | PlayerRole.defender =>
    ⟨if team = TeamId.A then 200 else FIELD_WIDTH - 200,
     centerY + (if teamSize % 2 = 0 then -100 else 100)⟩
  | PlayerRole.midfielder =>
    ⟨FIELD_WIDTH / 2 + (if team = TeamId.A then -100 else 100),
     centerY + (if teamSize % 3 = 0 then -150 else if teamSize % 3 = 1 then 0 else 150)⟩
  | PlayerRole.striker =>
    ⟨if team = TeamId.A then FIELD_WIDTH - 300 else 300, centerY⟩

/-- A freshly joined player record. -/
def newPlayer (id nm : String) (team : TeamId) (role : PlayerRole) (teamSize : ℕ) : Player :=
  { id := id, name := nm, team := team, role := role,
    position := getInitialPosition role team teamSize,
    targetPosition := none, speed := none, hasBall := false, lastActionTime := none,
    stats := ⟨0, 0, 0, 0⟩ }

/-- autoAssignRole (gameLogic.ts lines 360-366). -/
def autoAssignRole (team : List Player) : PlayerRole :=
  let roles := team.map (fun p => p.role)
  if roles.contains PlayerRole.goalkeeper = false then PlayerRole.goalkeeper
  else if (roles.filter (fun r => r = PlayerRole.defender)).length < 2 then PlayerRole.defender
  else if (roles.filter (fun r => r = PlayerRole.midfielder)).length < 2 then PlayerRole.midfielder
  else PlayerRole.striker

/-- The initial world record created by createGame (gameLogic.ts lines
238-284); the uuids and Date.now() are parameters. -/
def createGameState (gameId playerId playerName : String) (ppt gtw : Option ℕ) (t0 : ℕ) :
    GameState :=
  { gameId := gameId,
    status := GameStatus.waiting,
    config := ⟨jsOrN ppt 5, jsOrN gtw 3⟩,
    teamA := [newPlayer playerId playerName TeamId.A PlayerRole.striker 0],
    teamB := [],
    ball :=
      { position := ⟨FIELD_WIDTH / 2, FIELD_HEIGHT / 2⟩,
        velocity := ⟨0, 0⟩,
        possessionPlayerId := none,
        lastTouchPlayerId := none },
    score := ⟨0, 0⟩, winner := none, createdAt := t0, startedAt := none, finishedAt := none,
    lastUpdate := t0, version := 0, countdownStartTime := none }

/-- Tail of joinGame once the target team is fixed: role auto-assignment,
roster push, version bump, and the Waiting to Countdown transition when
both rosters are full. -/
def joinFinish (g : GameState) (playerId playerName : String) (targetTeam : TeamId)
    (role : Option PlayerRole) (tj : ℕ) : GameState :=
  let team := if targetTeam = TeamId.A then g.teamA else g.teamB
  let assignedRole :=
    match role with
    | some r => r
    | none => autoAssignRole team
  let np := newPlayer playerId playerName targetTeam assignedRole team.length
  let g1 :=
    if targetTeam = TeamId.A then { g with teamA := g.teamA ++ [np] }
    else { g with teamB := g.teamB ++ [np] }
  let g2 := { g1 with version := g1.version + 1 }
  if g2.teamA.length ≥ g2.config.playersPerTeam ∧
      g2.teamB.length ≥ g2.config.playersPerTeam then
    { g2 with status := GameStatus.countdown, countdownStartTime := some tj }
  else g2

/-- joinGame (gameLogic.ts lines 289-358); returns none on the failure
paths (already started, game full). -/
def joinGameRun (g : GameState) (playerId playerName : String) (teamPreference : Option TeamId)
    (role : Option PlayerRole) (tj : ℕ) : Option GameState :=
  if g.status ≠ GameStatus.waiting then none
  else
    let targetTeam? : Option TeamId :=
      match teamPreference with
      | some pref =>
        let team := if pref = TeamId.A then g.teamA else g.teamB
        if team.length ≥ g.config.playersPerTeam then
          let other := if pref = TeamId.A then TeamId.B else TeamId.A
          let otherTeam := if other = TeamId.A then g.teamA else g.teamB
          if otherTeam.length ≥ g.config.playersPerTeam then none else some other
        else some pref
      | none => some (if g.teamA.length ≤ g.teamB.length then TeamId.A else TeamId.B)
    match targetTeam? with
    | none => none
    | some targetTeam => some (joinFinish g playerId playerName targetTeam role tj)

/-- World states reachable from a freshly created game by joins, simulate
ticks, and action-handler calls (the persisted record after each call). -/
inductive Reachable : GameState → Prop
  | create (gameId playerId playerName : String) (ppt gtw : Option ℕ) (t0 : ℕ) :
      Reachable (createGameState gameId playerId playerName ppt gtw t0)
  | join {w w' : GameState} (playerId playerName : String) (pref : Option TeamId)
      (role : Option PlayerRole) (tj : ℕ) :
      Reachable w → joinGameRun w playerId playerName pref role tj = some w' → Reachable w'
  | step {w : GameState} (now : ℕ) : Reachable w → Reachable (simulate w now).1
  | move {w : GameState} (playerId : String) (targetX targetY : ℚ) (speed : Option ℚ)
      (now : ℕ) :
      Reachable w → Reachable (movePlayerPersisted w playerId targetX targetY speed now)
  | pass {w : GameState} (playerId targetPlayerId : String) (speed : Option ℚ) (now : ℕ) :
      Reachable w → Reachable (passBallPersisted w playerId targetPlayerId speed now)
  | shoot {w : GameState} (playerId : String) (speed : Option ℚ) (now : ℕ) :
      Reachable w → Reachable (shootPersisted w playerId speed now)
  | tackle {w : GameState} (playerId targetPlayerId : String) (rnd : Bool) (dirX dirY : ℚ)
      (now : ℕ) :
      Reachable w → Reachable (tacklePersisted w playerId targetPlayerId rnd dirX dirY now)

/-- Ids of the players currently flagged hasBall. -/
def holders (ps : List Player) : List String :=
  (ps.filter (fun p => p.hasBall)).map (fun p => p.id)

/-- The field rectangle inset by PLAYER_RADIUS. -/
def inPlayerRect (q : Position) : Prop :=
  PLAYER_RADIUS ≤ q.x ∧ q.x ≤ FIELD_WIDTH - PLAYER_RADIUS ∧
  PLAYER_RADIUS ≤ q.y ∧ q.y ≤ FIELD_HEIGHT - PLAYER_RADIUS

/-- The field rectangle inset by BALL_RADIUS. -/
def inBallRect (q : Position) : Prop :=
  BALL_RADIUS ≤ q.x ∧ q.x ≤ FIELD_WIDTH - BALL_RADIUS ∧
  BALL_RADIUS ≤ q.y ∧ q.y ≤ FIELD_HEIGHT - BALL_RADIUS

/-- The state invariant carried through every reachable state: possession
coherence (the hasBall flags match possessionPlayerId), positional bounds,
and a possessed ball being at rest. -/
def InvP (ps : List Player) (b : Ball) : Prop :=
  (match b.possessionPlayerId with
   | none => holders ps = []
   | some pid => holders ps = [pid]) ∧
  (∀ p ∈ ps, inPlayerRect p.position) ∧
  inBallRect b.position ∧
  (b.possessionPlayerId ≠ none → b.velocity = ⟨0, 0⟩)

def Inv (w : GameState) : Prop := InvP (w.teamA ++ w.teamB) w.ball

/-- The simulation-relevant fields of a world record: everything except
the stamped timestamps (lastUpdate, startedAt, finishedAt, createdAt,
countdownStartTime) and the game id. -/
def coreFields (s : GameState) :
    List Player × List Player × Ball × Score × GameStatus × Option TeamId × ℕ × GameConfig :=
  (s.teamA, s.teamB, s.ball, s.score, s.status, s.winner, s.version, s.config)

/-- Total stats.goals over a roster. -/
def goalsSum (ps : List Player) : ℕ := (ps.map (fun p => p.stats.goals)).sum

/-- 1 when the last toucher is on the given roster (the goal credit the
source applies), 0 otherwise. -/
def creditCount (team : List Player) (lt : Option String) : ℕ :=
  match lt with
  | some pid => if team.any (fun p => p.id = pid) then 1 else 0
  | none => 0

/-- Concrete player builder for the concrete test states below. -/
def mkPlayer (id nm : String) (team : TeamId) (role : PlayerRole) (px py : ℚ) : Player :=
  { id := id, name := nm, team := team, role := role, position := ⟨px, py⟩,
    targetPosition := none, speed := none, hasBall := false, lastActionTime := none,
    stats := ⟨0, 0, 0, 0⟩ }

/-- Concrete playing world with an empty field and a rolling free ball
(lastUpdate 0); exercises the fixed-step scheduler. -/
def cexW : GameState :=
  { gameId := "cex", status := GameStatus.playing, config := ⟨1, 3⟩,
    teamA := [], teamB := [],
    ball :=
      { position := ⟨600, 400⟩, velocity := ⟨4, 0⟩,
        possessionPlayerId := none, lastTouchPlayerId := none },
    score := ⟨0, 0⟩, winner := none, createdAt := 0, startedAt := some 0, finishedAt := none,
    lastUpdate := 0, version := 0, countdownStartTime := none }

/-- Concrete state immediately after a pass: the passer is the last
toucher, still at the ball's location, and the ball flies at speed 6. -/
def c2W : GameState :=
  { gameId := "c2", status := GameStatus.playing, config := ⟨1, 3⟩,
    teamA := [mkPlayer "P" "passer" TeamId.A PlayerRole.striker 600 400], teamB := [],
    ball :=
      { position := ⟨600, 400⟩, velocity := ⟨6, 0⟩,
        possessionPlayerId := none, lastTouchPlayerId := some "P" },
    score := ⟨0, 0⟩, winner := none, createdAt := 0, startedAt := some 0, finishedAt := none,
    lastUpdate := 0, version := 0, countdownStartTime := none }

/-- Concrete finished world. -/
def wfin : GameState :=
  { gameId := "fin", status := GameStatus.finished, config := ⟨1, 1⟩,
    teamA := [mkPlayer "a1" "ann" TeamId.A PlayerRole.striker 900 400],
    teamB := [mkPlayer "b1" "bob" TeamId.B PlayerRole.goalkeeper 1150 400],
    ball :=
      { position := ⟨600, 400⟩, velocity := ⟨0, 0⟩,
        possessionPlayerId := none, lastTouchPlayerId := some "b1" },
    score := ⟨0, 1⟩, winner := some TeamId.B, createdAt := 0, startedAt := some 0,
    finishedAt := some 500, lastUpdate := 500, version := 7, countdownStartTime := none }

/-- Concrete playing world with an unpossessed ball one tick away from
crossing the left end line inside the goal mouth; the last toucher is on
team B, the scoring team. -/
def wgoalL : GameState :=
  { gameId := "gl", status := GameStatus.playing, config := ⟨1, 3⟩,
    teamA := [], teamB := [mkPlayer "bob" "bob" TeamId.B PlayerRole.striker 1100 700],
    ball :=
      { position := ⟨10, 400⟩, velocity := ⟨-6, 0⟩,
        possessionPlayerId := none, lastTouchPlayerId := some "bob" },
    score := ⟨0, 0⟩, winner := none, createdAt := 0, startedAt := some 0, finishedAt := none,
    lastUpdate := 0, version := 0, countdownStartTime := none }

/-- Mirror image of wgoalL for the right end line (team A scores). -/
def wgoalR : GameState :=
  { gameId := "gr", status := GameStatus.playing, config := ⟨1, 3⟩,
    teamA := [mkPlayer "al" "al" TeamId.A PlayerRole.striker 100 100], teamB := [],
    ball :=
      { position := ⟨1190, 400⟩, velocity := ⟨6, 0⟩,
        possessionPlayerId := none, lastTouchPlayerId := some "al" },
    score := ⟨0, 0⟩, winner := none, createdAt := 0, startedAt := some 0, finishedAt := none,
    lastUpdate := 0, version := 0, countdownStartTime := none }

/-- As wgoalL but with goalsToWin 1, so the goal finishes the match. -/
def wgoalWin : GameState :=
  { gameId := "gw", status := GameStatus.playing, config := ⟨1, 1⟩,
    teamA := [], teamB := [],
    ball :=
      { position := ⟨10, 400⟩, velocity := ⟨-6, 0⟩,
        possessionPlayerId := none, lastTouchPlayerId := none },
    score := ⟨0, 0⟩, winner := none, createdAt := 0, startedAt := some 0, finishedAt := none,
    lastUpdate := 0, version := 0, countdownStartTime := none }

/-- As wgoalR but with goalsToWin 1, so the right-end goal finishes the
match with team A as the winner. -/
def wgoalWinR : GameState :=
  { gameId := "gwr", status := GameStatus.playing, config := ⟨1, 1⟩,
    teamA := [], teamB := [],
    ball :=
      { position := ⟨1190, 400⟩, velocity := ⟨6, 0⟩,
        possessionPlayerId := none, lastTouchPlayerId := none },
    score := ⟨0, 0⟩, winner := none, createdAt := 0, startedAt := some 0, finishedAt := none,
    lastUpdate := 0, version := 0, countdownStartTime := none }

/-- Reachable trace, step 0: a 1-versus-1 game created at time 0. -/
def w0 : GameState := createGameState "g" "p1" "alice" (some 1) (some 1) 0

/-- Step 1: bob joins team B at time 0; rosters are full, countdown starts. -/
def w1 : GameState := (joinGameRun w0 "p2" "bob" (some TeamId.B) none 0).getD w0

/-- Step 2: the tick at 3050 ends the countdown; the match is playing. -/
def w2 : GameState := (simulate w1 3050).1

/-- Step 3: alice is sent from (900,400) to the field center at speed 50. -/
def w3 : GameState := movePlayerPersisted w2 "p1" 600 400 (some 50) 3100

/-- Steps 4-9: six ticks; alice walks onto the ball and claims it on the
last one. -/
def w4 : GameState :=
  [3150, 3200, 3250, 3300, 3350, 3400].foldl (fun s t => (simulate s t).1) w3

/-- The goal-scored branch of goalCheckA (gameLogic.ts lines 109-128):
score bump, goal credit, ball reset, win check. -/
def goalFinishA (s : GameState) (now : ℕ) : GameState :=
  let s1 := { s with score := { s.score with teamB := s.score.teamB + 1 } }
  let s2 :=
    match s1.ball.lastTouchPlayerId with
    | some pid => { s1 with teamB := creditGoal s1.teamB pid }
    | none => s1
  let s3 := resetBall s2
  if s3.score.teamB ≥ s3.config.goalsToWin then
    { s3 with status := GameStatus.finished, winner := some TeamId.B, finishedAt := some now }
  else s3

/-- The goal-scored branch of goalCheckB (gameLogic.ts lines 132-151). -/
def goalFinishB (s : GameState) (now : ℕ) : GameState :=
  let s1 := { s with score := { s.score with teamA := s.score.teamA + 1 } }
  let s2 :=
    match s1.ball.lastTouchPlayerId with
    | some pid => { s1 with teamA := creditGoal s1.teamA pid }
    | none => s1
  let s3 := resetBall s2
  if s3.score.teamA ≥ s3.config.goalsToWin then
    { s3 with status := GameStatus.finished, winner := some TeamId.A, finishedAt := some now }
  else s3

/-- Concrete playing world whose single player stands exactly at the
target a move command will name (the "Already at target position" path);
with now = lastUpdate the inner simulate call returns unchanged. -/
def c9W : GameState :=
  { gameId := "c9", status := GameStatus.playing, config := ⟨1, 3⟩,
    teamA := [mkPlayer "m" "mover" TeamId.A PlayerRole.striker 600 400], teamB := [],
    ball :=
      { position := ⟨300, 300⟩, velocity := ⟨0, 0⟩,
        possessionPlayerId := none, lastTouchPlayerId := none },
    score := ⟨0, 0⟩, winner := none, createdAt := 0, startedAt := some 0, finishedAt := none,
    lastUpdate := 0, version := 0, countdownStartTime := none }

/-- Concrete playing world in which sam holds the ball at (500, 300);
used to exercise a pass whose target is the passer. -/
def c10W : GameState :=
  { gameId := "c10", status := GameStatus.playing, config := ⟨1, 3⟩,
    teamA := [{ mkPlayer "s" "sam" TeamId.A PlayerRole.striker 500 300 with hasBall := true }],
    teamB := [],
    ball :=
      { position := ⟨500, 300⟩, velocity := ⟨0, 0⟩,
        possessionPlayerId := some "s", lastTouchPlayerId := some "s" },
    score := ⟨0, 0⟩, winner := none, createdAt := 0, startedAt := some 0, finishedAt := none,
    lastUpdate := 0, version := 3, countdownStartTime := none }

theorem clamp_low {lo hi v : ℚ} : lo ≤ clamp lo hi v := le_max_left _ _

theorem clamp_high {lo hi v : ℚ} (h : lo ≤ hi) : clamp lo hi v ≤ hi :=
  max_le h (min_le_left _ _)

theorem inPlayerRect_clamp (x y : ℚ) :
    inPlayerRect
      ⟨clamp PLAYER_RADIUS (FIELD_WIDTH - PLAYER_RADIUS) x,
       clamp PLAYER_RADIUS (FIELD_HEIGHT - PLAYER_RADIUS) y⟩ := by
  refine ⟨clamp_low, clamp_high ?_, clamp_low, clamp_high ?_⟩ <;>
    norm_num [PLAYER_RADIUS, FIELD_WIDTH, FIELD_HEIGHT]

theorem inBallRect_clamp (x y : ℚ) :
    inBallRect
      ⟨clamp BALL_RADIUS (FIELD_WIDTH - BALL_RADIUS) x,
       clamp BALL_RADIUS (FIELD_HEIGHT - BALL_RADIUS) y⟩ := by
  refine ⟨clamp_low, clamp_high ?_, clamp_low, clamp_high ?_⟩ <;>
    norm_num [BALL_RADIUS, FIELD_WIDTH, FIELD_HEIGHT]

theorem inBallRect_of_inPlayerRect {q : Position} (h : inPlayerRect q) : inBallRect q := by
  obtain ⟨h1, h2, h3, h4⟩ := h
  refine ⟨?_, ?_, ?_, ?_⟩ <;>
    [exact le_trans (by norm_num [BALL_RADIUS, PLAYER_RADIUS]) h1;
     exact le_trans h2 (by norm_num [BALL_RADIUS, PLAYER_RADIUS, FIELD_WIDTH]);
     exact le_trans (by norm_num [BALL_RADIUS, PLAYER_RADIUS]) h3;
     exact le_trans h4 (by norm_num [BALL_RADIUS, PLAYER_RADIUS, FIELD_HEIGHT])]

theorem inBallRect_center : inBallRect ⟨FIELD_WIDTH / 2, FIELD_HEIGHT / 2⟩ := by
  norm_num [inBallRect, BALL_RADIUS, FIELD_WIDTH, FIELD_HEIGHT]

theorem holders_nil : holders [] = [] := rfl

theorem holders_cons (p : Player) (ps : List Player) :
    holders (p :: ps) = if p.hasBall = true then p.id :: holders ps else holders ps := by
  by_cases h : p.hasBall = true <;> simp [holders, List.filter_cons, h]

theorem holders_append (a b : List Player) : holders (a ++ b) = holders a ++ holders b := by
  simp [holders, List.filter_append]

theorem holders_of_pair_eq :
    ∀ {ps qs : List Player},
      ps.map (fun p => (p.id, p.hasBall)) = qs.map (fun p => (p.id, p.hasBall)) →
      holders ps = holders qs := by
  intro ps
  induction ps with
  | nil => intro qs h; cases qs <;> simp_all
  | cons p ps ih =>
    intro qs h
    cases qs with
    | nil => simp at h
    | cons q qs =>
      simp only [List.map_cons, List.cons.injEq, Prod.mk.injEq] at h
      obtain ⟨⟨hid, hball⟩, htl⟩ := h
      rw [holders_cons, holders_cons, hid, hball, ih htl]

theorem holders_nil_iff {ps : List Player} :
    holders ps = [] ↔ ∀ p ∈ ps, p.hasBall = false := by
  induction ps with
  | nil => simp [holders]
  | cons p ps ih =>
    rw [holders_cons]
    by_cases h : p.hasBall = true
    · simp only [if_pos h]
      constructor
      · intro hx; exact absurd hx (by simp)
      · intro hall
        have := hall p (by simp)
        rw [h] at this
        exact absurd this (by simp)
    · have hf : p.hasBall = false := by
        cases hb : p.hasBall
        · rfl
        · exact absurd hb h
      rw [if_neg h, ih]
      constructor
      · intro hall q hq
        rcases List.mem_cons.mp hq with rfl | hq
        · exact hf
        · exact hall q hq
      · intro hall q hq; exact hall q (List.mem_cons_of_mem _ hq)

theorem holders_ne_nil_of_mem {ps : List Player} {p : Player} (hmem : p ∈ ps)
    (hball : p.hasBall = true) : holders ps ≠ [] := by
  intro hnil
  have := (holders_nil_iff.mp hnil) p hmem
  rw [hball] at this
  exact Bool.true_eq_false.mp this

theorem pos_forall_of_map_eq {P : Position → Prop} :
    ∀ {ps qs : List Player},
      ps.map (fun p => p.position) = qs.map (fun p => p.position) →
      (∀ p ∈ ps, P p.position) → ∀ q ∈ qs, P q.position := by
  intro ps
  induction ps with
  | nil => intro qs h _ q hq; cases qs <;> simp_all
  | cons p ps ih =>
    intro qs h hall q hq
    cases qs with
    | nil => simp at hq
    | cons r rs =>
      simp only [List.map_cons, List.cons.injEq] at h
      rcases List.mem_cons.mp hq with rfl | hq
      · rw [← h.1]; exact hall p (by simp)
      · exact ih h.2 (fun x hx => hall x (List.mem_cons_of_mem _ hx)) q hq

theorem updateFirst_length (pid : String) (f : Player → Player) :
    ∀ ps : List Player, ((updateFirst pid f ps).1).length = ps.length := by
  intro ps
  induction ps with
  | nil => rfl
  | cons p ps ih =>
    by_cases h : p.id = pid <;> simp [updateFirst, h, ih]

theorem updateFirst_map_eq {α : Type} (tup : Player → α) {pid : String} {f : Player → Player}
    (hf : ∀ p, tup (f p) = tup p) :
    ∀ ps : List Player, ((updateFirst pid f ps).1).map tup = ps.map tup := by
  intro ps
  induction ps with
  | nil => rfl
  | cons p ps ih =>
    by_cases h : p.id = pid <;> simp [updateFirst, h, ih, hf]

theorem updateFirst_find? {pid : String} {f : Player → Player}
    (hid : ∀ p, (f p).id = p.id) :
    ∀ ps : List Player,
      ((updateFirst pid f ps).1).find? (fun p => p.id = pid) =
        (ps.find? (fun p => p.id = pid)).map f := by
  intro ps
  induction ps with
  | nil => rfl
  | cons p ps ih =>
    by_cases h : p.id = pid
    · simp [updateFirst, h, List.find?_cons, hid]
    · simp only [updateFirst, h, if_false, List.find?_cons]
      have hb : (decide (p.id = pid)) = false := by simp [h]
      simp [hb, ih]

theorem updateFirst_clear {pid : String} {f : Player → Player}
    (hclear : ∀ p, (f p).hasBall = false) :
    ∀ (ps : List Player) (x : String) (t : Player),
      holders ps = [x] → ps.find? (fun p => p.id = pid) = some t → t.hasBall = true →
      holders (updateFirst pid f ps).1 = [] := by
  intro ps
  induction ps with
  | nil => intro x t _ hfind; simp at hfind
  | cons p ps ih =>
    intro x t hhold hfind hball
    by_cases h : p.id = pid
    · have hd : (decide (p.id = pid)) = true := by simp [h]
      simp only [List.find?_cons, hd, Option.some.injEq] at hfind
      have hpt : p = t := hfind
      subst hpt
      rw [holders_cons, if_pos hball] at hhold
      have hps : holders ps = [] := by
        cases hq : holders ps
        · rfl
        · rw [hq] at hhold; injection hhold
      simp only [updateFirst, h, if_true]
      rw [holders_cons, hclear, if_neg (by simp)]
      exact hps
    · have hd : (decide (p.id = pid)) = false := by simp [h]
      simp only [List.find?_cons, hd] at hfind
      have htmem : t ∈ ps := List.mem_of_find?_eq_some hfind
      rw [holders_cons] at hhold
      by_cases hpb : p.hasBall = true
      · rw [if_pos hpb] at hhold
        have hps : holders ps = [] := by
          cases hq : holders ps
          · rfl
          · rw [hq] at hhold; injection hhold
        exact absurd hps (holders_ne_nil_of_mem htmem hball)
      · rw [if_neg hpb] at hhold
        simp only [updateFirst, h, if_false]
        rw [holders_cons, if_neg hpb]
        exact ih x t hhold hfind hball

theorem movePlayerStep_pair (b : Ball) (p : Player) :
    (((movePlayerStep b p).1).id, ((movePlayerStep b p).1).hasBall,
      ((movePlayerStep b p).1).stats) = (p.id, p.hasBall, p.stats) := by
  unfold movePlayerStep
  rcases p.targetPosition with _ | t <;> simp <;> split <;> [split; skip] <;> simp

theorem movePlayerStep_ball (b : Ball) (p : Player) :
    ∃ q : Position,
      (movePlayerStep b p).2.1 = { b with position := q } ∧
        (q = b.position ∨ inPlayerRect q) := by
  unfold movePlayerStep
  rcases p.targetPosition with _ | t
  · exact ⟨b.position, rfl, Or.inl rfl⟩
  · simp only
    split
    · split
      · exact ⟨_, rfl, Or.inr (inPlayerRect_clamp _ _)⟩
      · exact ⟨b.position, rfl, Or.inl rfl⟩
    · exact ⟨b.position, rfl, Or.inl rfl⟩

theorem movePlayerStep_bounds (b : Ball) {p : Player} (h : inPlayerRect p.position) :
    inPlayerRect ((movePlayerStep b p).1).position := by
  unfold movePlayerStep
  rcases p.targetPosition with _ | t
  · exact h
  · simp only
    split
    · split
      · exact inPlayerRect_clamp _ _
      · exact inPlayerRect_clamp _ _
    · exact h

theorem moveLoop_pair (ps : List Player) :
    ∀ b, ((moveLoop b ps).1).map (fun p => (p.id, p.hasBall)) =
      ps.map (fun p => (p.id, p.hasBall)) := by
  induction ps with
  | nil => intro b; rfl
  | cons p ps ih =>
    intro b
    have h := movePlayerStep_pair b p
    simp only [Prod.mk.injEq] at h
    simp [moveLoop, ih, h.1, h.2.1]

theorem moveLoop_stats (ps : List Player) :
    ∀ b, ((moveLoop b ps).1).map (fun p => (p.id, p.stats)) =
      ps.map (fun p => (p.id, p.stats)) := by
  induction ps with
  | nil => intro b; rfl
  | cons p ps ih =>
    intro b
    have h := movePlayerStep_pair b p
    simp only [Prod.mk.injEq] at h
    simp [moveLoop, ih, h.1, h.2.2]

theorem moveLoop_ball (ps : List Player) :
    ∀ b, ∃ q : Position,
      (moveLoop b ps).2.1 = { b with position := q } ∧ (q = b.position ∨ inPlayerRect q) := by
  induction ps with
  | nil => intro b; exact ⟨b.position, rfl, Or.inl rfl⟩
  | cons p ps ih =>
    intro b
    obtain ⟨q1, hq1, hq1r⟩ := movePlayerStep_ball b p
    obtain ⟨q2, hq2, hq2r⟩ := ih (movePlayerStep b p).2.1
    refine ⟨q2, ?_, ?_⟩
    · simp only [moveLoop]
      rw [hq2, hq1]
    · rcases hq2r with hq2r | hq2r
      · rw [hq1] at hq2r
        simp only at hq2r
        subst hq2r
        exact hq1r
      · exact Or.inr hq2r

theorem moveLoop_bounds (ps : List Player) :
    ∀ b, (∀ p ∈ ps, inPlayerRect p.position) →
      ∀ p ∈ (moveLoop b ps).1, inPlayerRect p.position := by
  induction ps with
  | nil => intro b _ p hp; simp [moveLoop] at hp
  | cons p ps ih =>
    intro b hall q hq
    simp only [moveLoop, List.mem_cons] at hq
    rcases hq with rfl | hq
    · exact movePlayerStep_bounds b (hall p (by simp))
    · exact ih _ (fun x hx => hall x (List.mem_cons_of_mem _ hx)) q hq

theorem moveLoop_ball_of_none (ps : List Player) :
    ∀ b, b.possessionPlayerId = none → (moveLoop b ps).2.1 = b := by
  induction ps with
  | nil => intro b _; rfl
  | cons p ps ih =>
    intro b hb
    have hstep : (movePlayerStep b p).2.1 = b := by
      unfold movePlayerStep
      rcases p.targetPosition with _ | t
      · rfl
      · simp only
        split
        · rw [if_neg]
          intro hand
          rw [hb] at hand
          exact Option.noConfusion hand.2
        · rfl
    simp only [moveLoop]
    rw [hstep, ih b hb]

theorem possessionLoop_of_far {ps : List Player} {b : Ball}
    (h : ∀ p ∈ ps, ¬ distance p.position b.position ≤ POSSESSION_DISTANCE) :
    possessionLoop b ps = (ps, b, false) := by
  induction ps with
  | nil => rfl
  | cons p ps ih =>
    have hp := h p (by simp)
    simp only [possessionLoop, if_neg hp]
    rw [ih (fun x hx => h x (List.mem_cons_of_mem _ hx))]

theorem possessionLoop_pos (ps : List Player) :
    ∀ b, ((possessionLoop b ps).1).map (fun p => p.position) =
      ps.map (fun p => p.position) := by
  induction ps with
  | nil => intro b; rfl
  | cons p ps ih =>
    intro b
    simp only [possessionLoop]
    split
    · simp
    · simp [ih b]

theorem possessionLoop_spec (ps : List Player) :
    ∀ b, (∀ p ∈ ps, p.hasBall = false) →
      (holders (possessionLoop b ps).1 = [] ∧ (possessionLoop b ps).2.1 = b) ∨
      (∃ pid, holders (possessionLoop b ps).1 = [pid] ∧
        (possessionLoop b ps).2.1 =
          { b with
            possessionPlayerId := some pid,
            lastTouchPlayerId := some pid,
            velocity := ⟨0, 0⟩ }) := by
  induction ps with
  | nil => intro b _; exact Or.inl ⟨rfl, rfl⟩
  | cons p ps ih =>
    intro b hall
    simp only [possessionLoop]
    split
    · refine Or.inr ⟨p.id, ?_, rfl⟩
      have hnil : holders ps = [] := holders_nil_iff.mpr (fun x hx => hall x (by simp [hx]))
      rw [holders_cons, hnil]
      simp
    · rcases ih b (fun x hx => hall x (List.mem_cons_of_mem _ hx)) with ⟨h1, h2⟩ | ⟨pid, h1, h2⟩
      · refine Or.inl ⟨?_, h2⟩
        rw [holders_cons, if_neg (by simp [hall p (by simp)]), h1]
      · refine Or.inr ⟨pid, ?_, h2⟩
        rw [holders_cons, if_neg (by simp [hall p (by simp)]), h1]

theorem stepFreeBall_fields (b : Ball) :
    (stepFreeBall b).possessionPlayerId = b.possessionPlayerId ∧
      (stepFreeBall b).lastTouchPlayerId = b.lastTouchPlayerId := by
  unfold stepFreeBall
  exact ⟨rfl, rfl⟩

theorem stepFreeBall_bounds (b : Ball) : inBallRect (stepFreeBall b).position :=
  inBallRect_clamp _ _

theorem creditGoal_triple (pid : String) :
    ∀ ps : List Player, (creditGoal ps pid).map (fun p => (p.id, p.hasBall, p.position)) =
      ps.map (fun p => (p.id, p.hasBall, p.position)) := by
  intro ps
  induction ps with
  | nil => rfl
  | cons p ps ih =>
    by_cases h : p.id = pid <;> simp [creditGoal, h, ih]

theorem creditGoal_goalsSum (pid : String) :
    ∀ ps : List Player,
      goalsSum (creditGoal ps pid) =
        goalsSum ps + (if ps.any (fun p => p.id = pid) = true then 1 else 0) := by
  intro ps
  induction ps with
  | nil => simp [creditGoal, goalsSum]
  | cons p ps ih =>
    by_cases h : p.id = pid
    · simp only [creditGoal, if_pos h, goalsSum, List.map_cons, List.sum_cons, List.any_cons,
        show (decide (p.id = pid)) = true by simp [h], Bool.true_or, if_pos]
      omega
    · simp only [creditGoal, if_neg h, goalsSum, List.map_cons, List.sum_cons, List.any_cons,
        show (decide (p.id = pid)) = false by simp [h], Bool.false_or]
      rw [show goalsSum (creditGoal ps pid) = (List.map (fun p => p.stats.goals)
        (creditGoal ps pid)).sum from rfl] at ih
      rw [show goalsSum ps = (List.map (fun p => p.stats.goals) ps).sum from rfl] at ih
      rw [ih]
      omega

theorem holders_clearAll (ps : List Player) :
    holders (ps.map (fun p => { p with hasBall := false })) = [] := by
  rw [holders_nil_iff]
  intro p hp
  simp only [List.mem_map] at hp
  obtain ⟨q, _, rfl⟩ := hp
  rfl

theorem clearAll_pos (ps : List Player) :
    (ps.map (fun p => { p with hasBall := false })).map (fun p => p.position) =
      ps.map (fun p => p.position) := by
  simp

theorem creditGoal_pos (pid : String) :
    ∀ ps : List Player, (creditGoal ps pid).map (fun p => p.position) =
      ps.map (fun p => p.position) := by
  intro ps
  induction ps with
  | nil => rfl
  | cons p ps ih =>
    by_cases h : p.id = pid <;> simp [creditGoal, h, ih]

theorem applyMove_eq (s : GameState) :
    (applyMove s).1 =
      { s with
        teamA := ((moveLoop s.ball (s.teamA ++ s.teamB)).1).take s.teamA.length,
        teamB := ((moveLoop s.ball (s.teamA ++ s.teamB)).1).drop s.teamA.length,
        ball := (moveLoop s.ball (s.teamA ++ s.teamB)).2.1 } := rfl

theorem applyMove_flag (s : GameState) :
    (applyMove s).2 = (moveLoop s.ball (s.teamA ++ s.teamB)).2.2 := rfl

theorem applyMove_inv {s : GameState} (h : Inv s) : Inv (applyMove s).1 := by
  obtain ⟨hcoh, hbounds, hball, hvel⟩ := h
  obtain ⟨q, hq, hqr⟩ := moveLoop_ball (s.teamA ++ s.teamB) s.ball
  rw [show Inv (applyMove s).1 =
    InvP (((moveLoop s.ball (s.teamA ++ s.teamB)).1).take s.teamA.length ++
      ((moveLoop s.ball (s.teamA ++ s.teamB)).1).drop s.teamA.length)
      (moveLoop s.ball (s.teamA ++ s.teamB)).2.1 from rfl]
  rw [List.take_append_drop]
  refine ⟨?_, ?_, ?_, ?_⟩
  · rw [hq]
    have hh := holders_of_pair_eq (moveLoop_pair (s.teamA ++ s.teamB) s.ball)
    simp only
    rw [hh]
    exact hcoh
  · exact moveLoop_bounds _ _ hbounds
  · rw [hq]
    rcases hqr with rfl | hqr
    · exact hball
    · exact inBallRect_of_inPlayerRect hqr
  · rw [hq]
    intro hposs
    exact hvel hposs

theorem applyMove_status (s : GameState) : (applyMove s).1.status = s.status := rfl

theorem applyMove_poss (s : GameState) :
    (applyMove s).1.ball.possessionPlayerId = s.ball.possessionPlayerId := by
  obtain ⟨q, hq, _⟩ := moveLoop_ball (s.teamA ++ s.teamB) s.ball
  rw [show (applyMove s).1.ball = (moveLoop s.ball (s.teamA ++ s.teamB)).2.1 from rfl, hq]

theorem clearedState_invfree (x : GameState)
    (hbA : ∀ p ∈ x.teamA, inPlayerRect p.position)
    (hbB : ∀ p ∈ x.teamB, inPlayerRect p.position) :
    (resetBall x).ball.possessionPlayerId = none ∧
      holders ((resetBall x).teamA ++ (resetBall x).teamB) = [] ∧
      (∀ p ∈ (resetBall x).teamA ++ (resetBall x).teamB, inPlayerRect p.position) ∧
      inBallRect (resetBall x).ball.position := by
  refine ⟨rfl, ?_, ?_, inBallRect_center⟩
  · rw [show (resetBall x).teamA = x.teamA.map (fun p => { p with hasBall := false }) from rfl,
      show (resetBall x).teamB = x.teamB.map (fun p => { p with hasBall := false }) from rfl,
      holders_append, holders_clearAll, holders_clearAll]
    rfl
  · intro p hp
    rcases List.mem_append.mp hp with hp | hp
    · exact pos_forall_of_map_eq (clearAll_pos x.teamA).symm hbA p hp
    · exact pos_forall_of_map_eq (clearAll_pos x.teamB).symm hbB p hp

theorem goalCheckA_invfree (s : GameState) (now : ℕ)
    (hposs : s.ball.possessionPlayerId = none)
    (hhold : holders (s.teamA ++ s.teamB) = [])
    (hbounds : ∀ p ∈ s.teamA ++ s.teamB, inPlayerRect p.position)
    (hball : inBallRect s.ball.position) :
    (goalCheckA s now).1.ball.possessionPlayerId = none ∧
      holders ((goalCheckA s now).1.teamA ++ (goalCheckA s now).1.teamB) = [] ∧
      (∀ p ∈ (goalCheckA s now).1.teamA ++ (goalCheckA s now).1.teamB,
        inPlayerRect p.position) ∧
      inBallRect (goalCheckA s now).1.ball.position := by
  have hbA : ∀ p ∈ s.teamA, inPlayerRect p.position :=
    fun p hp => hbounds p (List.mem_append.mpr (Or.inl hp))
  have hbB : ∀ p ∈ s.teamB, inPlayerRect p.position :=
    fun p hp => hbounds p (List.mem_append.mpr (Or.inr hp))
  by_cases hc : s.ball.position.x ≤ BALL_RADIUS ∧
      FIELD_HEIGHT / 2 - GOAL_WIDTH / 2 ≤ s.ball.position.y ∧
      s.ball.position.y ≤ FIELD_HEIGHT / 2 + GOAL_WIDTH / 2
  · simp only [goalCheckA, if_pos hc]
    rcases hlt : s.ball.lastTouchPlayerId with _ | pid <;> simp only [hlt] <;> split <;>
      first
      | exact clearedState_invfree _ hbA hbB
      | exact clearedState_invfree _ hbA
          (pos_forall_of_map_eq (creditGoal_pos pid s.teamB).symm hbB)
  · simp only [goalCheckA, if_neg hc]
    exact ⟨hposs, hhold, hbounds, hball⟩

theorem goalCheckB_invfree (s : GameState) (now : ℕ)
    (hposs : s.ball.possessionPlayerId = none)
    (hhold : holders (s.teamA ++ s.teamB) = [])
    (hbounds : ∀ p ∈ s.teamA ++ s.teamB, inPlayerRect p.position)
    (hball : inBallRect s.ball.position) :
    (goalCheckB s now).1.ball.possessionPlayerId = none ∧
      holders ((goalCheckB s now).1.teamA ++ (goalCheckB s now).1.teamB) = [] ∧
      (∀ p ∈ (goalCheckB s now).1.teamA ++ (goalCheckB s now).1.teamB,
        inPlayerRect p.position) ∧
      inBallRect (goalCheckB s now).1.ball.position := by
  have hbA : ∀ p ∈ s.teamA, inPlayerRect p.position :=
    fun p hp => hbounds p (List.mem_append.mpr (Or.inl hp))
  have hbB : ∀ p ∈ s.teamB, inPlayerRect p.position :=
    fun p hp => hbounds p (List.mem_append.mpr (Or.inr hp))
  by_cases hc : FIELD_WIDTH - BALL_RADIUS ≤ s.ball.position.x ∧
      FIELD_HEIGHT / 2 - GOAL_WIDTH / 2 ≤ s.ball.position.y ∧
      s.ball.position.y ≤ FIELD_HEIGHT / 2 + GOAL_WIDTH / 2
  · simp only [goalCheckB, if_pos hc]
    rcases hlt : s.ball.lastTouchPlayerId with _ | pid <;> simp only [hlt] <;> split <;>
      first
      | exact clearedState_invfree _ hbA hbB
      | exact clearedState_invfree _
          (pos_forall_of_map_eq (creditGoal_pos pid s.teamA).symm hbA) hbB
  · simp only [goalCheckB, if_neg hc]
    exact ⟨hposs, hhold, hbounds, hball⟩

theorem applyFree_inv {s : GameState} (now : ℕ) (h : Inv s)
    (hposs : s.ball.possessionPlayerId = none) : Inv (applyFree s now).1 := by
  obtain ⟨hcoh, hbounds, hball, _⟩ := h
  have hhold : holders (s.teamA ++ s.teamB) = [] := by
    rw [hposs] at hcoh
    exact hcoh
  have h3poss : (stepFreeBall s.ball).possessionPlayerId = none := by
    rw [(stepFreeBall_fields s.ball).1, hposs]
  have hg1 := goalCheckA_invfree { s with ball := stepFreeBall s.ball } now h3poss hhold
    hbounds (stepFreeBall_bounds s.ball)
  have hg2 := goalCheckB_invfree (goalCheckA { s with ball := stepFreeBall s.ball } now).1 now
    hg1.1 hg1.2.1 hg1.2.2.1 hg1.2.2.2
  set g2 := (goalCheckB (goalCheckA { s with ball := stepFreeBall s.ball } now).1 now).1 with hg2def
  have hallfalse : ∀ p ∈ g2.teamA ++ g2.teamB, p.hasBall = false :=
    holders_nil_iff.mp hg2.2.1
  have hpl := possessionLoop_spec (g2.teamA ++ g2.teamB) g2.ball hallfalse
  have hplpos := possessionLoop_pos (g2.teamA ++ g2.teamB) g2.ball
  rw [show Inv (applyFree s now).1 =
    InvP (((possessionLoop g2.ball (g2.teamA ++ g2.teamB)).1).take g2.teamA.length ++
      ((possessionLoop g2.ball (g2.teamA ++ g2.teamB)).1).drop g2.teamA.length)
      (possessionLoop g2.ball (g2.teamA ++ g2.teamB)).2.1 from rfl]
  rw [List.take_append_drop]
  rcases hpl with ⟨h1, h2⟩ | ⟨pid, h1, h2⟩
  · refine ⟨?_, ?_, ?_, ?_⟩
    · rw [h2, hg2.1]
      exact h1
    · exact pos_forall_of_map_eq hplpos.symm hg2.2.2.1
    · rw [h2]
      exact hg2.2.2.2
    · rw [h2, hg2.1]
      intro hc
      exact absurd rfl hc
  · refine ⟨?_, ?_, ?_, ?_⟩
    · rw [h2]
      exact h1
    · exact pos_forall_of_map_eq hplpos.symm hg2.2.2.1
    · rw [h2]
      exact hg2.2.2.2
    · rw [h2]
      intro _
      rfl

theorem followPossessor_inv {s : GameState} (h : Inv s) : Inv (followPossessor s) := by
  obtain ⟨hcoh, hbounds, hball, hvel⟩ := h
  unfold followPossessor
  cases hfind : (s.teamA ++ s.teamB).find? (fun p => some p.id = s.ball.possessionPlayerId) with
  | none => exact ⟨hcoh, hbounds, hball, hvel⟩
  | some q =>
    have hq : q ∈ s.teamA ++ s.teamB := List.mem_of_find?_eq_some hfind
    exact ⟨hcoh, hbounds, inBallRect_of_inPlayerRect (hbounds q hq), hvel⟩

theorem tickPhysics_inv {s : GameState} (now : ℕ) (c : Bool) (h : Inv s) :
    Inv (tickPhysics s now c).1 := by
  unfold tickPhysics
  have hmv : Inv (applyMove s).1 := applyMove_inv h
  cases hposs : (applyMove s).1.ball.possessionPlayerId with
  | none =>
    simp only [hposs]
    split
    · exact applyFree_inv now hmv hposs
    · exact applyFree_inv now hmv hposs
  | some pid =>
    simp only [hposs]
    split
    · exact followPossessor_inv hmv
    · exact followPossessor_inv hmv

theorem tickCountdown_proj (s : GameState) (now : ℕ) :
    (tickCountdown s now).1.teamA = s.teamA ∧ (tickCountdown s now).1.teamB = s.teamB ∧
      (tickCountdown s now).1.ball = s.ball := by
  unfold tickCountdown
  rcases s.status <;> rcases s.countdownStartTime with _ | c <;>
    try exact ⟨rfl, rfl, rfl⟩
  all_goals
    by_cases hcd : (COUNTDOWN_DURATION : ℤ) ≤ (now : ℤ) - (c : ℤ) <;> simp [hcd]

theorem tickCountdown_inv {s : GameState} (now : ℕ) (h : Inv s) :
    Inv (tickCountdown s now).1 := by
  have hp := tickCountdown_proj s now
  unfold Inv
  rw [hp.1, hp.2.1, hp.2.2]
  exact h

theorem simulate_inv {s : GameState} (now : ℕ) (h : Inv s) : Inv (simulate s now).1 := by
  simp only [simulate]
  split
  · exact h
  · split
    · exact tickPhysics_inv now _ (tickCountdown_inv now h)
    · exact tickCountdown_inv now h

theorem updatePlayer_all (s : GameState) (pid : String) (f : Player → Player) :
    (updatePlayer s pid f).teamA ++ (updatePlayer s pid f).teamB =
      (updateFirst pid f (s.teamA ++ s.teamB)).1 := by
  unfold updatePlayer
  exact List.take_append_drop _ _

theorem updatePlayer_ball (s : GameState) (pid : String) (f : Player → Player) :
    (updatePlayer s pid f).ball = s.ball := rfl

theorem updatePlayer_inv {s : GameState} {pid : String} {f : Player → Player}
    (hf : ∀ p, ((f p).id, (f p).hasBall, (f p).position) = (p.id, p.hasBall, p.position))
    (h : Inv s) : Inv (updatePlayer s pid f) := by
  obtain ⟨hcoh, hbounds, hball, hvel⟩ := h
  have hf1 : ∀ p, ((f p).id, (f p).hasBall) = (p.id, p.hasBall) := by
    intro p
    have hp := hf p
    simp only [Prod.mk.injEq] at hp
    simp [hp.1, hp.2.1]
  have hf2 : ∀ p, (f p).position = p.position := by
    intro p
    have hp := hf p
    simp only [Prod.mk.injEq] at hp
    exact hp.2.2
  have hpair := @updateFirst_map_eq (String × Bool) (fun p => (p.id, p.hasBall)) pid f hf1
    (s.teamA ++ s.teamB)
  have hpos := @updateFirst_map_eq Position (fun p => p.position) pid f hf2 (s.teamA ++ s.teamB)
  unfold Inv
  rw [updatePlayer_all, updatePlayer_ball]
  refine ⟨?_, ?_, hball, hvel⟩
  · rw [holders_of_pair_eq hpair]
    exact hcoh
  · exact pos_forall_of_map_eq hpos.symm hbounds

theorem persistIf_inv {g : GameState} {r : GameState × Bool} (h : Inv g)
    (hs : r.2 = true → Inv r.1) : Inv (persistIf g r) := by
  unfold persistIf
  split
  · exact hs ‹_›
  · exact h

theorem inv_version {s : GameState} {v : ℕ} (h : Inv s) : Inv { s with version := v } := h

theorem movePlayerRun_inv {g : GameState} (h : Inv g) (playerId : String)
    (targetX targetY : ℚ) (speed : Option ℚ) (now : ℕ) :
    (movePlayerRun g playerId targetX targetY speed now).2.1 = true →
      Inv (movePlayerRun g playerId targetX targetY speed now).1 := by
  intro hsaved
  have hg1 : Inv (simulate g now).1 := simulate_inv now h
  have hfin : ∀ gg (pl : Player), Inv gg →
      (moveFinish gg pl playerId targetX targetY now).2.1 = true →
      Inv (moveFinish gg pl playerId targetX targetY now).1 := by
    intro gg pl hgg _
    simp only [moveFinish]
    split
    · exact hgg
    · exact inv_version (updatePlayer_inv (fun p => rfl) hgg)
  by_cases h1 : g.status ≠ GameStatus.playing
  · simp only [movePlayerRun, if_pos h1] at hsaved
    exact absurd hsaved (by simp)
  · simp only [movePlayerRun, if_neg h1] at hsaved ⊢
    cases hfind : findPlayer (simulate g now).1 playerId with
    | none => simp [hfind] at hsaved
    | some player =>
      simp only [hfind] at hsaved ⊢
      by_cases h2 : cooldownActive player now MOVE_COOLDOWN = true
      · simp [if_pos h2] at hsaved
      · simp only [if_neg h2] at hsaved ⊢
        rcases speed with _ | sp
        · exact hfin _ _ hg1 hsaved
        · simp only at hsaved ⊢
          by_cases h3 : sp < MIN_PLAYER_SPEED
          · simp [if_pos h3] at hsaved
          · simp only [if_neg h3] at hsaved ⊢
            by_cases h4 : sp > MAX_PLAYER_SPEED
            · simp [if_pos h4] at hsaved
            · simp only [if_neg h4] at hsaved ⊢
              exact hfin _ _ (updatePlayer_inv (fun p => rfl) hg1) hsaved

theorem movePlayerPersisted_inv {g : GameState} (h : Inv g) (playerId : String)
    (targetX targetY : ℚ) (speed : Option ℚ) (now : ℕ) :
    Inv (movePlayerPersisted g playerId targetX targetY speed now) :=
  persistIf_inv h (movePlayerRun_inv h playerId targetX targetY speed now)

theorem clearBall_update_inv {g1 : GameState} (h : Inv g1) {pid : String} {t : Player}
    {x : String} (hx : g1.ball.possessionPlayerId = some x)
    (hfind : findPlayer g1 pid = some t) (htb : t.hasBall = true)
    (newBall : Ball) (hbp : newBall.position = g1.ball.position)
    (hbposs : newBall.possessionPlayerId = none)
    {f : Player → Player} (hfc : ∀ p, (f p).hasBall = false)
    (hfp : ∀ p, (f p).position = p.position) :
    Inv (updatePlayer { g1 with ball := newBall } pid f) := by
  obtain ⟨hcoh, hbounds, hball1, hvel⟩ := h
  rw [hx] at hcoh
  have hpos := @updateFirst_map_eq Position (fun p => p.position) pid f hfp
    (g1.teamA ++ g1.teamB)
  unfold Inv
  rw [updatePlayer_all, updatePlayer_ball]
  rw [show ({ g1 with ball := newBall } : GameState).teamA = g1.teamA from rfl,
    show ({ g1 with ball := newBall } : GameState).teamB = g1.teamB from rfl,
    show ({ g1 with ball := newBall } : GameState).ball = newBall from rfl]
  refine ⟨?_, ?_, ?_, ?_⟩
  · rw [hbposs]
    exact updateFirst_clear hfc (g1.teamA ++ g1.teamB) x t hcoh hfind htb
  · exact pos_forall_of_map_eq hpos.symm hbounds
  · rw [hbp]
    exact hball1
  · rw [hbposs]
    intro hc
    exact absurd rfl hc

theorem passBallRun_inv {g : GameState} (h : Inv g) (playerId targetPlayerId : String)
    (speed : Option ℚ) (now : ℕ) :
    (passBallRun g playerId targetPlayerId speed now).2.1 = true →
      Inv (passBallRun g playerId targetPlayerId speed now).1 := by
  intro hsaved
  have hg1 : Inv (simulate g now).1 := simulate_inv now h
  by_cases h1 : g.status ≠ GameStatus.playing
  · simp only [passBallRun, if_pos h1] at hsaved
    exact absurd hsaved (by simp)
  · simp only [passBallRun, if_neg h1] at hsaved ⊢
    cases hfind : findPlayer (simulate g now).1 playerId with
    | none => simp [hfind] at hsaved
    | some player =>
      simp only [hfind] at hsaved ⊢
      by_cases h2 : player.hasBall = false ∨
          (simulate g now).1.ball.possessionPlayerId ≠ some playerId
      · simp [if_pos h2] at hsaved
      · simp only [if_neg h2] at hsaved ⊢
        push_neg at h2
        have hpb : player.hasBall = true := by
          cases hb : player.hasBall
          · exact absurd hb h2.1
          · rfl
        by_cases h3 : cooldownActive player now PASS_COOLDOWN = true
        · simp [if_pos h3] at hsaved
        · simp only [if_neg h3] at hsaved ⊢
          cases hfindT : findPlayer (simulate g now).1 targetPlayerId with
          | none => simp [hfindT] at hsaved
          | some targetPlayer =>
            simp only [hfindT] at hsaved ⊢
            by_cases h4 : targetPlayer.team ≠ player.team
            · simp [if_pos h4] at hsaved
            · simp only [if_neg h4] at hsaved ⊢
              have hmain : ∀ sp : ℚ,
                  Inv (passFinish (simulate g now).1 playerId player targetPlayer sp now).1 := by
                intro sp
                simp only [passFinish]
                exact inv_version (clearBall_update_inv hg1 h2.2 hfind hpb _
                  (by split <;> rfl) rfl (fun p => rfl) (fun p => rfl))
              rcases speed with _ | sp
              · simp only at hsaved ⊢
                exact hmain PASS_SPEED
              · simp only at hsaved ⊢
                by_cases h5 : sp < MIN_PASS_SPEED
                · simp [if_pos h5] at hsaved
                · simp only [if_neg h5] at hsaved ⊢
                  by_cases h6 : sp > MAX_PASS_SPEED
                  · simp [if_pos h6] at hsaved
                  · simp only [if_neg h6] at hsaved ⊢
                    exact hmain sp

theorem passBallPersisted_inv {g : GameState} (h : Inv g) (playerId targetPlayerId : String)
    (speed : Option ℚ) (now : ℕ) :
    Inv (passBallPersisted g playerId targetPlayerId speed now) :=
  persistIf_inv h (passBallRun_inv h playerId targetPlayerId speed now)

theorem shootRun_inv {g : GameState} (h : Inv g) (playerId : String) (speed : Option ℚ)
    (now : ℕ) :
    (shootRun g playerId speed now).2.1 = true → Inv (shootRun g playerId speed now).1 := by
  intro hsaved
  have hg1 : Inv (simulate g now).1 := simulate_inv now h
  by_cases h1 : g.status ≠ GameStatus.playing
  · simp only [shootRun, if_pos h1] at hsaved
    exact absurd hsaved (by simp)
  · simp only [shootRun, if_neg h1] at hsaved ⊢
    cases hfind : findPlayer (simulate g now).1 playerId with
    | none => simp [hfind] at hsaved
    | some player =>
      simp only [hfind] at hsaved ⊢
      by_cases h2 : player.hasBall = false ∨
          (simulate g now).1.ball.possessionPlayerId ≠ some playerId
      · simp [if_pos h2] at hsaved
      · simp only [if_neg h2] at hsaved ⊢
        push_neg at h2
        have hpb : player.hasBall = true := by
          cases hb : player.hasBall
          · exact absurd hb h2.1
          · rfl
        by_cases h3 : cooldownActive player now SHOOT_COOLDOWN = true
        · simp [if_pos h3] at hsaved
        · simp only [if_neg h3] at hsaved ⊢
          have hmain : ∀ sp : ℚ,
              Inv (shootFinish (simulate g now).1 playerId player sp now).1 := by
            intro sp
            simp only [shootFinish]
            exact inv_version (clearBall_update_inv hg1 h2.2 hfind hpb _
              (by split <;> split <;> rfl) rfl (fun p => rfl) (fun p => rfl))
          rcases speed with _ | sp
          · exact hmain SHOOT_SPEED
          · simp only at hsaved ⊢
            by_cases h5 : sp < MIN_SHOOT_SPEED
            · simp [if_pos h5] at hsaved
            · simp only [if_neg h5] at hsaved ⊢
              by_cases h6 : sp > MAX_SHOOT_SPEED
              · simp [if_pos h6] at hsaved
              · simp only [if_neg h6] at hsaved ⊢
                exact hmain sp

theorem shootPersisted_inv {g : GameState} (h : Inv g) (playerId : String) (speed : Option ℚ)
    (now : ℕ) : Inv (shootPersisted g playerId speed now) :=
  persistIf_inv h (shootRun_inv h playerId speed now)

theorem tackleRun_inv {g : GameState} (h : Inv g) (playerId targetPlayerId : String)
    (rnd : Bool) (dirX dirY : ℚ) (now : ℕ) :
    (tackleRun g playerId targetPlayerId rnd dirX dirY now).2.1 = true →
      Inv (tackleRun g playerId targetPlayerId rnd dirX dirY now).1 := by
  intro hsaved
  have hg1 : Inv (simulate g now).1 := simulate_inv now h
  by_cases h1 : g.status ≠ GameStatus.playing
  · simp only [tackleRun, if_pos h1] at hsaved
    exact absurd hsaved (by simp)
  · simp only [tackleRun, if_neg h1] at hsaved ⊢
    cases hfind : findPlayer (simulate g now).1 playerId with
    | none => simp [hfind] at hsaved
    | some player =>
      simp only [hfind] at hsaved ⊢
      by_cases h2 : cooldownActive player now TACKLE_COOLDOWN = true
      · simp [if_pos h2] at hsaved
      · simp only [if_neg h2] at hsaved ⊢
        cases hfindT : findPlayer (simulate g now).1 targetPlayerId with
        | none => simp [hfindT] at hsaved
        | some targetPlayer =>
          simp only [hfindT] at hsaved ⊢
          by_cases h3 : targetPlayer.team = player.team
          · simp [if_pos h3] at hsaved
          · simp only [if_neg h3] at hsaved ⊢
            by_cases h4 : targetPlayer.hasBall = false
            · simp [if_pos h4] at hsaved
            · simp only [if_neg h4] at hsaved ⊢
              have htb : targetPlayer.hasBall = true := by
                cases hb : targetPlayer.hasBall
                · exact absurd hb h4
                · rfl
              by_cases h5 : distance player.position targetPlayer.position > TACKLE_DISTANCE
              · simp [if_pos h5] at hsaved
              · simp only [if_neg h5] at hsaved ⊢
                have hg2 : ∀ g2 : GameState, Inv g2 →
                    Inv { (updatePlayer g2 playerId
                      (fun p => { p with lastActionTime := some now })) with
                        version := (updatePlayer g2 playerId
                          (fun p => { p with lastActionTime := some now })).version + 1 } :=
                  fun g2 hgg => inv_version (updatePlayer_inv (fun p => rfl) hgg)
                rcases rnd with _ | _
                · simp only [Bool.false_eq_true, if_neg (by simp : ¬ (false = true))]
                  exact hg2 _ hg1
                · simp only [if_pos rfl]
                  refine hg2 _ ?_
                  refine updatePlayer_inv (fun p => rfl) ?_
                  cases hposs : (simulate g now).1.ball.possessionPlayerId with
                  | none =>
                    obtain ⟨hcoh, _, _, _⟩ := hg1
                    rw [hposs] at hcoh
                    exact absurd hcoh
                      (holders_ne_nil_of_mem (List.mem_of_find?_eq_some hfindT) htb)
                  | some q =>
                    exact clearBall_update_inv hg1 hposs hfindT htb
                      { (simulate g now).1.ball with
                        possessionPlayerId := none,
                        velocity := ⟨dirX * 2, dirY * 2⟩ } rfl rfl
                      (fun p => rfl) (fun p => rfl)

theorem tacklePersisted_inv {g : GameState} (h : Inv g) (playerId targetPlayerId : String)
    (rnd : Bool) (dirX dirY : ℚ) (now : ℕ) :
    Inv (tacklePersisted g playerId targetPlayerId rnd dirX dirY now) :=
  persistIf_inv h (tackleRun_inv h playerId targetPlayerId rnd dirX dirY now)

theorem getInitialPosition_bounds (role : PlayerRole) (team : TeamId) (n : ℕ) :
    inPlayerRect (getInitialPosition role team n) := by
  rcases role <;> rcases team <;>
    simp only [getInitialPosition] <;> split_ifs <;>
    norm_num [inPlayerRect, PLAYER_RADIUS, FIELD_WIDTH, FIELD_HEIGHT]

theorem newPlayer_hasBall (id nm : String) (team : TeamId) (role : PlayerRole) (n : ℕ) :
    (newPlayer id nm team role n).hasBall = false := rfl

theorem createGameState_inv (gameId playerId playerName : String) (ppt gtw : Option ℕ)
    (t0 : ℕ) : Inv (createGameState gameId playerId playerName ppt gtw t0) := by
  refine ⟨?_, ?_, inBallRect_center, ?_⟩
  · rw [show (createGameState gameId playerId playerName ppt gtw t0).ball.possessionPlayerId =
      none from rfl]
    rw [show (createGameState gameId playerId playerName ppt gtw t0).teamA ++
      (createGameState gameId playerId playerName ppt gtw t0).teamB =
        [newPlayer playerId playerName TeamId.A PlayerRole.striker 0] from rfl]
    rw [holders_cons, newPlayer_hasBall, if_neg (by simp)]
    rfl
  · intro p hp
    rw [show (createGameState gameId playerId playerName ppt gtw t0).teamA ++
      (createGameState gameId playerId playerName ppt gtw t0).teamB =
        [newPlayer playerId playerName TeamId.A PlayerRole.striker 0] from rfl] at hp
    rcases List.mem_cons.mp hp with rfl | hp
    · exact getInitialPosition_bounds _ _ _
    · simp at hp
  · intro hc
    exact absurd rfl hc

theorem append_player_inv {w : GameState} (h : Inv w) {np : Player}
    (hnb : np.hasBall = false) (hpos : inPlayerRect np.position) :
    Inv { w with teamA := w.teamA ++ [np] } ∧ Inv { w with teamB := w.teamB ++ [np] } := by
  obtain ⟨hcoh, hbounds, hball, hvel⟩ := h
  have hnp : holders [np] = [] := by
    rw [holders_cons, if_neg (by simp [hnb])]
    rfl
  have hmemA : ∀ p ∈ (w.teamA ++ [np]) ++ w.teamB, inPlayerRect p.position := by
    intro p hp
    rcases List.mem_append.mp hp with hp | hp
    · rcases List.mem_append.mp hp with hp | hp
      · exact hbounds p (List.mem_append.mpr (Or.inl hp))
      · rcases List.mem_cons.mp hp with rfl | hp
        · exact hpos
        · simp at hp
    · exact hbounds p (List.mem_append.mpr (Or.inr hp))
  have hmemB : ∀ p ∈ w.teamA ++ (w.teamB ++ [np]), inPlayerRect p.position := by
    intro p hp
    rcases List.mem_append.mp hp with hp | hp
    · exact hbounds p (List.mem_append.mpr (Or.inl hp))
    · rcases List.mem_append.mp hp with hp | hp
      · exact hbounds p (List.mem_append.mpr (Or.inr hp))
      · rcases List.mem_cons.mp hp with rfl | hp
        · exact hpos
        · simp at hp
  have hhA : holders ((w.teamA ++ [np]) ++ w.teamB) = holders (w.teamA ++ w.teamB) := by
    rw [holders_append, holders_append, holders_append, hnp]
    simp
  have hhB : holders (w.teamA ++ (w.teamB ++ [np])) = holders (w.teamA ++ w.teamB) := by
    rw [holders_append, holders_append, holders_append, hnp]
    simp
  constructor
  · refine ⟨?_, hmemA, hball, hvel⟩
    cases hposs : w.ball.possessionPlayerId with
    | none =>
      rw [hposs] at hcoh
      show holders _ = []
      rw [hhA]
      exact hcoh
    | some pid =>
      rw [hposs] at hcoh
      show holders _ = [pid]
      rw [hhA]
      exact hcoh
  · refine ⟨?_, hmemB, hball, hvel⟩
    cases hposs : w.ball.possessionPlayerId with
    | none =>
      rw [hposs] at hcoh
      show holders _ = []
      rw [hhB]
      exact hcoh
    | some pid =>
      rw [hposs] at hcoh
      show holders _ = [pid]
      rw [hhB]
      exact hcoh

theorem joinFinish_inv {w : GameState} (h : Inv w) (playerId playerName : String)
    (targetTeam : TeamId) (role : Option PlayerRole) (tj : ℕ) :
    Inv (joinFinish w playerId playerName targetTeam role tj) := by
  rcases targetTeam <;> simp only [joinFinish] <;> split_ifs <;>
    first
    | exact (append_player_inv h (newPlayer_hasBall _ _ _ _ _)
        (getInitialPosition_bounds _ _ _)).1
    | exact (append_player_inv h (newPlayer_hasBall _ _ _ _ _)
        (getInitialPosition_bounds _ _ _)).2
    | simp_all

theorem joinGameRun_inv {w w' : GameState} (playerId playerName : String)
    (pref : Option TeamId) (role : Option PlayerRole) (tj : ℕ) (h : Inv w)
    (hj : joinGameRun w playerId playerName pref role tj = some w') : Inv w' := by
  unfold joinGameRun at hj
  split at hj
  · exact absurd hj (by simp)
  · simp only at hj
    split at hj
    · exact absurd hj (by simp)
    · simp only [Option.some.injEq] at hj
      subst hj
      exact joinFinish_inv h playerId playerName _ role tj

theorem reachable_inv {w : GameState} (h : Reachable w) : Inv w := by
  induction h with
  | create gameId playerId playerName ppt gtw t0 => exact createGameState_inv _ _ _ _ _ _
  | join playerId playerName pref role tj _ hj ih =>
      exact joinGameRun_inv playerId playerName pref role tj ih hj
  | step now _ ih => exact simulate_inv now ih
  | move playerId targetX targetY speed now _ ih =>
      exact movePlayerPersisted_inv ih playerId targetX targetY speed now
  | pass playerId targetPlayerId speed now _ ih =>
      exact passBallPersisted_inv ih playerId targetPlayerId speed now
  | shoot playerId speed now _ ih => exact shootPersisted_inv ih playerId speed now
  | tackle playerId targetPlayerId rnd dirX dirY now _ ih =>
      exact tacklePersisted_inv ih playerId targetPlayerId rnd dirX dirY now

theorem map_eq_singleton {α β : Type} {f : α → β} {l : List α} {x : β}
    (h : l.map f = [x]) : ∃ a, l = [a] ∧ f a = x := by
  cases l with
  | nil => simp at h
  | cons a t =>
    cases t with
    | nil =>
      simp only [List.map_cons, List.map_nil, List.cons.injEq, and_true] at h
      exact ⟨a, rfl, h⟩
    | cons b t2 => simp at h

theorem reachable_foldl (ts : List ℕ) :
    ∀ w, Reachable w → Reachable (ts.foldl (fun s t => (simulate s t).1) w) := by
  induction ts with
  | nil => intro w hw; exact hw
  | cons t ts ih => intro w hw; exact ih _ (Reachable.step t hw)

theorem w2_reachable : Reachable w2 :=
  Reachable.step 3050
    (Reachable.join "p2" "bob" (some TeamId.B) none 0
      (Reachable.create "g" "p1" "alice" (some 1) (some 1) 0) (by decide))

theorem w4_reachable : Reachable w4 :=
  reachable_foldl [3150, 3200, 3250, 3300, 3350, 3400] w3
    (Reachable.move "p1" 600 400 (some 50) 3100 w2_reachable)

/-- C3: in every world state reachable from a fresh game by joins,
simulate ticks, and action-handler calls, at most one player across both
rosters has hasBall = true, and whenever ball.possessionPlayerId is set it
equals the id of the unique player with hasBall = true. -/
theorem C3_single_possessor (w : GameState) (h : Reachable w) :
    ((w.teamA ++ w.teamB).filter (fun p => p.hasBall)).length ≤ 1 ∧
      ∀ pid, w.ball.possessionPlayerId = some pid →
        ∃ q, (w.teamA ++ w.teamB).filter (fun p => p.hasBall) = [q] ∧ q.id = pid := by
  obtain ⟨hcoh, _, _, _⟩ := reachable_inv h
  constructor
  · have hlen : ((w.teamA ++ w.teamB).filter (fun p => p.hasBall)).length =
        (holders (w.teamA ++ w.teamB)).length := by
      unfold holders
      rw [List.length_map]
    rw [hlen]
    cases hposs : w.ball.possessionPlayerId with
    | none => rw [hposs] at hcoh; rw [hcoh]; norm_num
    | some pid => rw [hposs] at hcoh; rw [hcoh]; norm_num
  · intro pid hposs
    rw [hposs] at hcoh
    exact map_eq_singleton hcoh

/-- C3 witness: the invariant instantiated at the concrete reachable state
w4, in which alice has walked onto the ball and possesses it. -/
theorem C3_single_possessor_witness :
    Reachable w4 ∧
      (((w4.teamA ++ w4.teamB).filter (fun p => p.hasBall)).length ≤ 1 ∧
        ∀ pid, w4.ball.possessionPlayerId = some pid →
          ∃ q, (w4.teamA ++ w4.teamB).filter (fun p => p.hasBall) = [q] ∧ q.id = pid) :=
  ⟨w4_reachable, C3_single_possessor w4 w4_reachable⟩

/-- C7: in every reachable world state, and after every further tick,
each player's position lies within the field rectangle inset by
PLAYER_RADIUS and the ball's position within the rectangle inset by
BALL_RADIUS. -/
theorem C7_bounds (w : GameState) (h : Reachable w) :
    ((∀ p ∈ w.teamA ++ w.teamB, inPlayerRect p.position) ∧ inBallRect w.ball.position) ∧
      ∀ now : ℕ,
        (∀ p ∈ (simulate w now).1.teamA ++ (simulate w now).1.teamB,
          inPlayerRect p.position) ∧
        inBallRect (simulate w now).1.ball.position := by
  obtain ⟨_, hbounds, hball, _⟩ := reachable_inv h
  refine ⟨⟨hbounds, hball⟩, fun now => ?_⟩
  obtain ⟨_, hbounds2, hball2, _⟩ := reachable_inv (Reachable.step now h)
  exact ⟨hbounds2, hball2⟩

/-- C7 witness: the bounds invariant instantiated at the concrete
reachable state w4 (with one further tick at time 4000). -/
theorem C7_bounds_witness :
    Reachable w4 ∧
      ((∀ p ∈ w4.teamA ++ w4.teamB, inPlayerRect p.position) ∧
        inBallRect w4.ball.position) :=
  ⟨w4_reachable, (C7_bounds w4 w4_reachable).1⟩

/-- C8 counterexample: the freshly created game is reachable, its ball is
unpossessed, and its velocity is zero — so "velocity is zero iff the ball
is possessed" fails, as does "no unpossessed ball ever has zero
velocity". -/
theorem C8_counterexample :
    Reachable (createGameState "g" "p" "n" none none 0) ∧
      ¬ ((createGameState "g" "p" "n" none none 0).ball.velocity = ⟨0, 0⟩ ↔
        (createGameState "g" "p" "n" none none 0).ball.possessionPlayerId ≠ none) :=
  ⟨Reachable.create "g" "p" "n" none none 0, by decide⟩

/-- C8 (amended): in every reachable world state, if the ball is possessed
then its velocity is zero.  The converse direction of the original claim
is false: an unpossessed ball may be at rest (fresh game, after a reset,
or after friction stops it). -/
theorem C8_possessed_at_rest (w : GameState) (h : Reachable w) (pid : String)
    (hposs : w.ball.possessionPlayerId = some pid) : w.ball.velocity = ⟨0, 0⟩ :=
  (reachable_inv h).2.2.2 (by rw [hposs]; exact fun hc => Option.noConfusion hc)

set_option maxRecDepth 20000 in
/-- C8 witness: at the concrete reachable state w4 alice possesses the
ball and its velocity is zero. -/
theorem C8_possessed_at_rest_witness :
    Reachable w4 ∧ w4.ball.possessionPlayerId = some "p1" ∧ w4.ball.velocity = ⟨0, 0⟩ :=
  ⟨w4_reachable, by decide, C8_possessed_at_rest w4 w4_reachable "p1" (by decide)⟩

theorem tickCountdown_playing {s : GameState} (now : ℕ) (h : s.status = GameStatus.playing) :
    tickCountdown s now = (s, false) := by
  unfold tickCountdown
  rw [h]

theorem tickCountdown_finished {s : GameState} (now : ℕ) (h : s.status = GameStatus.finished) :
    tickCountdown s now = (s, false) := by
  unfold tickCountdown
  rw [h]

theorem simulate_skip {w : GameState} {now : ℕ}
    (h : (now : ℤ) - (w.lastUpdate : ℤ) < (SIMULATION_STEP : ℤ)) :
    simulate w now = (w, false) := by
  unfold simulate
  rw [if_pos h]

theorem simulate_tick {w : GameState} {now : ℕ} (hst : w.status = GameStatus.playing)
    (hguard : ¬ ((now : ℤ) - (w.lastUpdate : ℤ) < (SIMULATION_STEP : ℤ))) :
    simulate w now =
      ({ (tickPhysics w now false).1 with lastUpdate := now },
       (tickPhysics w now false).2) := by
  unfold simulate
  rw [if_neg hguard, tickCountdown_playing now hst]
  simp [hst]

theorem simulate_finished_cases {w : GameState} (now : ℕ)
    (h : w.status = GameStatus.finished) :
    simulate w now = (w, false) ∨ simulate w now = ({ w with lastUpdate := now }, false) := by
  unfold simulate
  by_cases hg : (now : ℤ) - (w.lastUpdate : ℤ) < (SIMULATION_STEP : ℤ)
  · rw [if_pos hg]; exact Or.inl rfl
  · rw [if_neg hg, tickCountdown_finished now h]
    right
    simp [h]

theorem moveLoop_id {ps : List Player} (h : ∀ p ∈ ps, p.targetPosition = none) :
    ∀ b, moveLoop b ps = (ps, b, false) := by
  induction ps with
  | nil => intro b; rfl
  | cons p ps ih =>
    intro b
    have hstep : movePlayerStep b p = (p, b, false) := by
      unfold movePlayerStep
      rw [h p (by simp)]
    simp only [moveLoop, hstep, ih (fun x hx => h x (List.mem_cons_of_mem _ hx)) b]
    rfl

theorem applyMove_id {s : GameState} (h : ∀ p ∈ s.teamA ++ s.teamB, p.targetPosition = none) :
    applyMove s = (s, false) := by
  simp only [applyMove, moveLoop_id h s.ball, List.take_left, List.drop_left]

theorem findPlayer_version (s : GameState) (pid : String) (v : ℕ) :
    findPlayer { s with version := v } pid = findPlayer s pid := rfl

theorem findPlayer_updatePlayer {s : GameState} {pid : String} {f : Player → Player}
    {player : Player} (hid : ∀ q, (f q).id = q.id)
    (h : findPlayer s pid = some player) :
    findPlayer (updatePlayer s pid f) pid = some (f player) := by
  unfold findPlayer at h ⊢
  rw [show (updatePlayer s pid f).teamA ++ (updatePlayer s pid f).teamB =
    (updateFirst pid f (s.teamA ++ s.teamB)).1 from updatePlayer_all s pid f]
  rw [updateFirst_find? hid, h]
  rfl

theorem goalsSum_clearAll (ps : List Player) :
    goalsSum (ps.map (fun p => { p with hasBall := false })) = goalsSum ps := by
  unfold goalsSum
  rw [List.map_map]
  rfl

theorem goalCheckA_pos {s : GameState} (now : ℕ)
    (h : s.ball.position.x ≤ BALL_RADIUS ∧
      FIELD_HEIGHT / 2 - GOAL_WIDTH / 2 ≤ s.ball.position.y ∧
      s.ball.position.y ≤ FIELD_HEIGHT / 2 + GOAL_WIDTH / 2) :
    goalCheckA s now = (goalFinishA s now, true) := by
  unfold goalCheckA goalFinishA
  rw [if_pos h]

theorem goalCheckA_neg {s : GameState} (now : ℕ)
    (h : ¬ (s.ball.position.x ≤ BALL_RADIUS ∧
      FIELD_HEIGHT / 2 - GOAL_WIDTH / 2 ≤ s.ball.position.y ∧
      s.ball.position.y ≤ FIELD_HEIGHT / 2 + GOAL_WIDTH / 2)) :
    goalCheckA s now = (s, false) := by
  unfold goalCheckA
  rw [if_neg h]

theorem goalCheckB_pos {s : GameState} (now : ℕ)
    (h : FIELD_WIDTH - BALL_RADIUS ≤ s.ball.position.x ∧
      FIELD_HEIGHT / 2 - GOAL_WIDTH / 2 ≤ s.ball.position.y ∧
      s.ball.position.y ≤ FIELD_HEIGHT / 2 + GOAL_WIDTH / 2) :
    goalCheckB s now = (goalFinishB s now, true) := by
  unfold goalCheckB goalFinishB
  rw [if_pos h]

theorem goalCheckB_neg {s : GameState} (now : ℕ)
    (h : ¬ (FIELD_WIDTH - BALL_RADIUS ≤ s.ball.position.x ∧
      FIELD_HEIGHT / 2 - GOAL_WIDTH / 2 ≤ s.ball.position.y ∧
      s.ball.position.y ≤ FIELD_HEIGHT / 2 + GOAL_WIDTH / 2)) :
    goalCheckB s now = (s, false) := by
  unfold goalCheckB
  rw [if_neg h]

theorem goalFinishA_fields (s : GameState) (now : ℕ) :
    (goalFinishA s now).score.teamB = s.score.teamB + 1 ∧
    (goalFinishA s now).score.teamA = s.score.teamA ∧
    (goalFinishA s now).ball.position = ⟨FIELD_WIDTH / 2, FIELD_HEIGHT / 2⟩ ∧
    (goalFinishA s now).ball.velocity = ⟨0, 0⟩ ∧
    (goalFinishA s now).ball.possessionPlayerId = none ∧
    (goalFinishA s now).teamA = s.teamA.map (fun p => { p with hasBall := false }) ∧
    (goalFinishA s now).teamB =
      ((match s.ball.lastTouchPlayerId with
        | some pid => creditGoal s.teamB pid
        | none => s.teamB : List Player)).map (fun p => { p with hasBall := false }) ∧
    (goalFinishA s now).version = s.version ∧
    (goalFinishA s now).config = s.config ∧
    (s.score.teamB + 1 < s.config.goalsToWin →
      (goalFinishA s now).status = s.status ∧ (goalFinishA s now).winner = s.winner) ∧
    (s.config.goalsToWin ≤ s.score.teamB + 1 →
      (goalFinishA s now).status = GameStatus.finished ∧
      (goalFinishA s now).winner = some TeamId.B ∧
      (goalFinishA s now).finishedAt = some now) := by
  obtain ⟨gid, st, cfg, tA, tB, bl, sc, win, cAt, sAt, fAt, lu, ver, cst⟩ := s
  obtain ⟨bp, bv, bposs, blt⟩ := bl
  obtain ⟨sa, sb⟩ := sc
  unfold goalFinishA resetBall
  rcases blt with _ | pid <;>
    by_cases hw : sb + 1 ≥ cfg.goalsToWin <;>
      simp [hw] <;>
        first
          | (intro hc; exact absurd hc (by omega))
          | (refine ⟨fun hc => absurd hc (by omega), fun hc => absurd hc (by omega)⟩)

theorem goalFinishB_fields (s : GameState) (now : ℕ) :
    (goalFinishB s now).score.teamA = s.score.teamA + 1 ∧
    (goalFinishB s now).score.teamB = s.score.teamB ∧
    (goalFinishB s now).ball.position = ⟨FIELD_WIDTH / 2, FIELD_HEIGHT / 2⟩ ∧
    (goalFinishB s now).ball.velocity = ⟨0, 0⟩ ∧
    (goalFinishB s now).ball.possessionPlayerId = none ∧
    (goalFinishB s now).teamB = s.teamB.map (fun p => { p with hasBall := false }) ∧
    (goalFinishB s now).teamA =
      ((match s.ball.lastTouchPlayerId with
        | some pid => creditGoal s.teamA pid
        | none => s.teamA : List Player)).map (fun p => { p with hasBall := false }) ∧
    (goalFinishB s now).version = s.version ∧
    (goalFinishB s now).config = s.config ∧
    (s.score.teamA + 1 < s.config.goalsToWin →
      (goalFinishB s now).status = s.status ∧ (goalFinishB s now).winner = s.winner) ∧
    (s.config.goalsToWin ≤ s.score.teamA + 1 →
      (goalFinishB s now).status = GameStatus.finished ∧
      (goalFinishB s now).winner = some TeamId.A ∧
      (goalFinishB s now).finishedAt = some now) := by
  obtain ⟨gid, st, cfg, tA, tB, bl, sc, win, cAt, sAt, fAt, lu, ver, cst⟩ := s
  obtain ⟨bp, bv, bposs, blt⟩ := bl
  obtain ⟨sa, sb⟩ := sc
  unfold goalFinishB resetBall
  rcases blt with _ | pid <;>
    by_cases hw : sa + 1 ≥ cfg.goalsToWin <;>
      simp [hw] <;>
        first
          | (intro hc; exact absurd hc (by omega))
          | (refine ⟨fun hc => absurd hc (by omega), fun hc => absurd hc (by omega)⟩)

theorem leftGoalTick (w : GameState) (now : ℕ)
    (hst : w.status = GameStatus.playing)
    (hguard : ¬ ((now : ℤ) - (w.lastUpdate : ℤ) < (SIMULATION_STEP : ℤ)))
    (hposs : w.ball.possessionPlayerId = none)
    (htg : ∀ p ∈ w.teamA ++ w.teamB, p.targetPosition = none)
    (hfar : ∀ p ∈ w.teamA ++ w.teamB,
      ¬ distance p.position ⟨FIELD_WIDTH / 2, FIELD_HEIGHT / 2⟩ ≤ POSSESSION_DISTANCE)
    (hgl : (stepFreeBall w.ball).position.x ≤ BALL_RADIUS ∧
      FIELD_HEIGHT / 2 - GOAL_WIDTH / 2 ≤ (stepFreeBall w.ball).position.y ∧
      (stepFreeBall w.ball).position.y ≤ FIELD_HEIGHT / 2 + GOAL_WIDTH / 2) :
    (simulate w now).1 =
      { goalFinishA { w with ball := stepFreeBall w.ball } now with
        version := (goalFinishA { w with ball := stepFreeBall w.ball } now).version + 1,
        lastUpdate := now } := by
  have hs := simulate_tick hst hguard
  obtain ⟨hsb, hsa, hbp, hbv, hbposs, htA, htB, hver, hcfg, hnw, hwin⟩ :=
    goalFinishA_fields { w with ball := stepFreeBall w.ball } now
  have hA : goalCheckA { w with ball := stepFreeBall w.ball } now =
      (goalFinishA { w with ball := stepFreeBall w.ball } now, true) :=
    goalCheckA_pos now hgl
  have hB : goalCheckB (goalFinishA { w with ball := stepFreeBall w.ball } now) now =
      (goalFinishA { w with ball := stepFreeBall w.ball } now, false) := by
    refine goalCheckB_neg now ?_
    rintro ⟨h1, -⟩
    rw [hbp] at h1
    norm_num [FIELD_WIDTH, FIELD_HEIGHT, BALL_RADIUS] at h1
  have hposmap :
      ((goalFinishA { w with ball := stepFreeBall w.ball } now).teamA ++
        (goalFinishA { w with ball := stepFreeBall w.ball } now).teamB).map
          (fun p => p.position) =
        (w.teamA ++ w.teamB).map (fun p => p.position) := by
    rw [List.map_append, List.map_append, htA, htB, clearAll_pos]
    rcases hlt : (stepFreeBall w.ball).lastTouchPlayerId with _ | pid <;>
      simp only [hlt, clearAll_pos, creditGoal_pos]
  have hfar2 : ∀ p ∈ (goalFinishA { w with ball := stepFreeBall w.ball } now).teamA ++
      (goalFinishA { w with ball := stepFreeBall w.ball } now).teamB,
      ¬ distance p.position
          (goalFinishA { w with ball := stepFreeBall w.ball } now).ball.position ≤
        POSSESSION_DISTANCE := by
    rw [hbp]
    exact @pos_forall_of_map_eq
      (fun q => ¬ distance q ⟨FIELD_WIDTH / 2, FIELD_HEIGHT / 2⟩ ≤ POSSESSION_DISTANCE)
      _ _ hposmap.symm hfar
  have hP := possessionLoop_of_far hfar2
  rw [hs]
  simp only [tickPhysics, applyMove_id htg, hposs, applyFree, hA, hB, hP,
    List.take_left, List.drop_left, Bool.or_true, Bool.true_or, Bool.or_false,
    Bool.false_or, if_true]

theorem rightGoalTick (w : GameState) (now : ℕ)
    (hst : w.status = GameStatus.playing)
    (hguard : ¬ ((now : ℤ) - (w.lastUpdate : ℤ) < (SIMULATION_STEP : ℤ)))
    (hposs : w.ball.possessionPlayerId = none)
    (htg : ∀ p ∈ w.teamA ++ w.teamB, p.targetPosition = none)
    (hfar : ∀ p ∈ w.teamA ++ w.teamB,
      ¬ distance p.position ⟨FIELD_WIDTH / 2, FIELD_HEIGHT / 2⟩ ≤ POSSESSION_DISTANCE)
    (hgr : FIELD_WIDTH - BALL_RADIUS ≤ (stepFreeBall w.ball).position.x ∧
      FIELD_HEIGHT / 2 - GOAL_WIDTH / 2 ≤ (stepFreeBall w.ball).position.y ∧
      (stepFreeBall w.ball).position.y ≤ FIELD_HEIGHT / 2 + GOAL_WIDTH / 2) :
    (simulate w now).1 =
      { goalFinishB { w with ball := stepFreeBall w.ball } now with
        version := (goalFinishB { w with ball := stepFreeBall w.ball } now).version + 1,
        lastUpdate := now } := by
  have hs := simulate_tick hst hguard
  obtain ⟨hsa, hsb, hbp, hbv, hbposs, htB, htA, hver, hcfg, hnw, hwin⟩ :=
    goalFinishB_fields { w with ball := stepFreeBall w.ball } now
  have hA : goalCheckA { w with ball := stepFreeBall w.ball } now =
      ({ w with ball := stepFreeBall w.ball }, false) := by
    refine goalCheckA_neg now ?_
    rintro ⟨h1, -⟩
    have h2 := hgr.1
    norm_num [FIELD_WIDTH, BALL_RADIUS] at h1 h2
    linarith
  have hB : goalCheckB { w with ball := stepFreeBall w.ball } now =
      (goalFinishB { w with ball := stepFreeBall w.ball } now, true) :=
    goalCheckB_pos now hgr
  have hposmap :
      ((goalFinishB { w with ball := stepFreeBall w.ball } now).teamA ++
        (goalFinishB { w with ball := stepFreeBall w.ball } now).teamB).map
          (fun p => p.position) =
        (w.teamA ++ w.teamB).map (fun p => p.position) := by
    rw [List.map_append, List.map_append, htA, htB, clearAll_pos]
    rcases hlt : (stepFreeBall w.ball).lastTouchPlayerId with _ | pid <;>
      simp only [hlt, clearAll_pos, creditGoal_pos]
  have hfar2 : ∀ p ∈ (goalFinishB { w with ball := stepFreeBall w.ball } now).teamA ++
      (goalFinishB { w with ball := stepFreeBall w.ball } now).teamB,
      ¬ distance p.position
          (goalFinishB { w with ball := stepFreeBall w.ball } now).ball.position ≤
        POSSESSION_DISTANCE := by
    rw [hbp]
    exact @pos_forall_of_map_eq
      (fun q => ¬ distance q ⟨FIELD_WIDTH / 2, FIELD_HEIGHT / 2⟩ ≤ POSSESSION_DISTANCE)
      _ _ hposmap.symm hfar
  have hP := possessionLoop_of_far hfar2
  rw [hs]
  simp only [tickPhysics, applyMove_id htg, hposs, applyFree, hA, hB, hP,
    List.take_left, List.drop_left, Bool.or_true, Bool.true_or, Bool.or_false,
    Bool.false_or, if_true]

/-- C4: during a tick in which the free ball crosses an end line inside
the goal-mouth band, exactly one goal is registered: the scoring team's
score rises by exactly 1 and the other score is unchanged, stats.goals is
credited to the lastTouchPlayerId player exactly when that player is on
the scoring team's roster, the ball is reset to the field center with zero
velocity and no possessor, and hasBall is cleared on every player.  (The
hfar hypothesis keeps the post-reset possession-claim pass of the same
tick from re-claiming the centered ball.) -/
theorem C4_goal_registered (w : GameState) (now : ℕ)
    (hst : w.status = GameStatus.playing)
    (hguard : ¬ ((now : ℤ) - (w.lastUpdate : ℤ) < (SIMULATION_STEP : ℤ)))
    (hposs : w.ball.possessionPlayerId = none)
    (htg : ∀ p ∈ w.teamA ++ w.teamB, p.targetPosition = none)
    (hfar : ∀ p ∈ w.teamA ++ w.teamB,
      ¬ distance p.position ⟨FIELD_WIDTH / 2, FIELD_HEIGHT / 2⟩ ≤ POSSESSION_DISTANCE) :
    ((stepFreeBall w.ball).position.x ≤ BALL_RADIUS ∧
        FIELD_HEIGHT / 2 - GOAL_WIDTH / 2 ≤ (stepFreeBall w.ball).position.y ∧
        (stepFreeBall w.ball).position.y ≤ FIELD_HEIGHT / 2 + GOAL_WIDTH / 2 →
      (simulate w now).1.score.teamB = w.score.teamB + 1 ∧
      (simulate w now).1.score.teamA = w.score.teamA ∧
      (simulate w now).1.ball.position = ⟨FIELD_WIDTH / 2, FIELD_HEIGHT / 2⟩ ∧
      (simulate w now).1.ball.velocity = ⟨0, 0⟩ ∧
      (simulate w now).1.ball.possessionPlayerId = none ∧
      (∀ p ∈ (simulate w now).1.teamA ++ (simulate w now).1.teamB, p.hasBall = false) ∧
      goalsSum (simulate w now).1.teamB =
        goalsSum w.teamB + creditCount w.teamB w.ball.lastTouchPlayerId ∧
      goalsSum (simulate w now).1.teamA = goalsSum w.teamA) ∧
    (FIELD_WIDTH - BALL_RADIUS ≤ (stepFreeBall w.ball).position.x ∧
        FIELD_HEIGHT / 2 - GOAL_WIDTH / 2 ≤ (stepFreeBall w.ball).position.y ∧
        (stepFreeBall w.ball).position.y ≤ FIELD_HEIGHT / 2 + GOAL_WIDTH / 2 →
      (simulate w now).1.score.teamA = w.score.teamA + 1 ∧
      (simulate w now).1.score.teamB = w.score.teamB ∧
      (simulate w now).1.ball.position = ⟨FIELD_WIDTH / 2, FIELD_HEIGHT / 2⟩ ∧
      (simulate w now).1.ball.velocity = ⟨0, 0⟩ ∧
      (simulate w now).1.ball.possessionPlayerId = none ∧
      (∀ p ∈ (simulate w now).1.teamA ++ (simulate w now).1.teamB, p.hasBall = false) ∧
      goalsSum (simulate w now).1.teamA =
        goalsSum w.teamA + creditCount w.teamA w.ball.lastTouchPlayerId ∧
      goalsSum (simulate w now).1.teamB = goalsSum w.teamB) := by
  constructor
  · intro hgl
    have heq := leftGoalTick w now hst hguard hposs htg hfar hgl
    obtain ⟨hsb, hsa, hbp, hbv, hbposs, htA, htB, hver, hcfg, hnw, hwin⟩ :=
      goalFinishA_fields { w with ball := stepFreeBall w.ball } now
    rw [heq]
    have hstep := (stepFreeBall_fields w.ball).2
    refine ⟨hsb, hsa, hbp, hbv, hbposs, ?_, ?_, ?_⟩
    · intro p hp
      simp only [htA, htB] at hp
      rcases List.mem_append.mp hp with h | h <;>
        · obtain ⟨q, -, rfl⟩ := List.mem_map.mp h
          rfl
    · show goalsSum (goalFinishA { w with ball := stepFreeBall w.ball } now).teamB = _
      rw [htB]
      show goalsSum (((match (stepFreeBall w.ball).lastTouchPlayerId with
        | some pid => creditGoal w.teamB pid
        | none => w.teamB : List Player)).map (fun p => { p with hasBall := false })) = _
      rw [hstep]
      rcases hlt : w.ball.lastTouchPlayerId with _ | pid <;>
        simp only [goalsSum_clearAll, creditGoal_goalsSum, creditCount] <;>
          omega
    · show goalsSum (goalFinishA { w with ball := stepFreeBall w.ball } now).teamA = _
      rw [htA]
      exact goalsSum_clearAll _
  · intro hgr
    have heq := rightGoalTick w now hst hguard hposs htg hfar hgr
    obtain ⟨hsa, hsb, hbp, hbv, hbposs, htB, htA, hver, hcfg, hnw, hwin⟩ :=
      goalFinishB_fields { w with ball := stepFreeBall w.ball } now
    rw [heq]
    have hstep := (stepFreeBall_fields w.ball).2
    refine ⟨hsa, hsb, hbp, hbv, hbposs, ?_, ?_, ?_⟩
    · intro p hp
      simp only [htA, htB] at hp
      rcases List.mem_append.mp hp with h | h <;>
        · obtain ⟨q, -, rfl⟩ := List.mem_map.mp h
          rfl
    · show goalsSum (goalFinishB { w with ball := stepFreeBall w.ball } now).teamA = _
      rw [htA]
      show goalsSum (((match (stepFreeBall w.ball).lastTouchPlayerId with
        | some pid => creditGoal w.teamA pid
        | none => w.teamA : List Player)).map (fun p => { p with hasBall := false })) = _
      rw [hstep]
      rcases hlt : w.ball.lastTouchPlayerId with _ | pid <;>
        simp only [goalsSum_clearAll, creditGoal_goalsSum, creditCount] <;>
          omega
    · show goalsSum (goalFinishB { w with ball := stepFreeBall w.ball } now).teamB = _
      rw [htB]
      exact goalsSum_clearAll _

/-- C4 witness: the goal-registration theorem instantiated at wgoalL
(ball crossing the left end line, team B scores and bob is credited) and
at wgoalR (right end line, team A scores and al is credited). -/
theorem C4_goal_registered_witness :
    ((simulate wgoalL 50).1.score.teamB = wgoalL.score.teamB + 1 ∧
      (simulate wgoalL 50).1.score.teamA = wgoalL.score.teamA ∧
      (simulate wgoalL 50).1.ball.position = ⟨FIELD_WIDTH / 2, FIELD_HEIGHT / 2⟩ ∧
      (simulate wgoalL 50).1.ball.velocity = ⟨0, 0⟩ ∧
      (simulate wgoalL 50).1.ball.possessionPlayerId = none ∧
      (∀ p ∈ (simulate wgoalL 50).1.teamA ++ (simulate wgoalL 50).1.teamB,
        p.hasBall = false) ∧
      goalsSum (simulate wgoalL 50).1.teamB =
        goalsSum wgoalL.teamB + creditCount wgoalL.teamB wgoalL.ball.lastTouchPlayerId ∧
      goalsSum (simulate wgoalL 50).1.teamA = goalsSum wgoalL.teamA) ∧
    ((simulate wgoalR 50).1.score.teamA = wgoalR.score.teamA + 1 ∧
      (simulate wgoalR 50).1.score.teamB = wgoalR.score.teamB ∧
      (simulate wgoalR 50).1.ball.position = ⟨FIELD_WIDTH / 2, FIELD_HEIGHT / 2⟩ ∧
      (simulate wgoalR 50).1.ball.velocity = ⟨0, 0⟩ ∧
      (simulate wgoalR 50).1.ball.possessionPlayerId = none ∧
      (∀ p ∈ (simulate wgoalR 50).1.teamA ++ (simulate wgoalR 50).1.teamB,
        p.hasBall = false) ∧
      goalsSum (simulate wgoalR 50).1.teamA =
        goalsSum wgoalR.teamA + creditCount wgoalR.teamA wgoalR.ball.lastTouchPlayerId ∧
      goalsSum (simulate wgoalR 50).1.teamB = goalsSum wgoalR.teamB) :=
  ⟨(C4_goal_registered wgoalL 50 rfl (by decide) rfl (by decide) (by decide)).1 (by decide),
   (C4_goal_registered wgoalR 50 rfl (by decide) rfl (by decide) (by decide)).2 (by decide)⟩

/-- C5: a finished game is terminal — a tick leaves the status finished,
and every action handler returns the game-not-in-progress failure and
leaves the persisted record unchanged; and a goal that brings the scoring
team's tally to goalsToWin flips the status to finished, sets the winner
to that team (team B for a left-end goal, team A for a right-end goal)
and stamps finishedAt with the tick time. -/
theorem C5_finished_terminal (w w' w'' : GameState) (now now' now'' : ℕ)
    (pid tpid : String)
    (tx ty : ℚ) (spm spp sps : Option ℚ) (rnd : Bool) (dx dy : ℚ) :
    (w.status = GameStatus.finished →
      (simulate w now).1.status = GameStatus.finished ∧
      movePlayerRun w pid tx ty spm now = (w, false, MoveRes.failure "Game not in progress") ∧
      passBallRun w pid tpid spp now =
        (w, false, BallActionRes.failure "Game not in progress") ∧
      shootRun w pid sps now = (w, false, BallActionRes.failure "Game not in progress") ∧
      tackleRun w pid tpid rnd dx dy now =
        (w, false, TackleRes.failure "Game not in progress") ∧
      movePlayerPersisted w pid tx ty spm now = w ∧
      passBallPersisted w pid tpid spp now = w ∧
      shootPersisted w pid sps now = w ∧
      tacklePersisted w pid tpid rnd dx dy now = w) ∧
    (w'.status = GameStatus.playing →
      ¬ ((now' : ℤ) - (w'.lastUpdate : ℤ) < (SIMULATION_STEP : ℤ)) →
      w'.ball.possessionPlayerId = none →
      (∀ p ∈ w'.teamA ++ w'.teamB, p.targetPosition = none) →
      (∀ p ∈ w'.teamA ++ w'.teamB,
        ¬ distance p.position ⟨FIELD_WIDTH / 2, FIELD_HEIGHT / 2⟩ ≤ POSSESSION_DISTANCE) →
      ((stepFreeBall w'.ball).position.x ≤ BALL_RADIUS ∧
        FIELD_HEIGHT / 2 - GOAL_WIDTH / 2 ≤ (stepFreeBall w'.ball).position.y ∧
        (stepFreeBall w'.ball).position.y ≤ FIELD_HEIGHT / 2 + GOAL_WIDTH / 2) →
      w'.config.goalsToWin ≤ w'.score.teamB + 1 →
      (simulate w' now').1.status = GameStatus.finished ∧
      (simulate w' now').1.winner = some TeamId.B ∧
      (simulate w' now').1.finishedAt = some now') ∧
    (w''.status = GameStatus.playing →
      ¬ ((now'' : ℤ) - (w''.lastUpdate : ℤ) < (SIMULATION_STEP : ℤ)) →
      w''.ball.possessionPlayerId = none →
      (∀ p ∈ w''.teamA ++ w''.teamB, p.targetPosition = none) →
      (∀ p ∈ w''.teamA ++ w''.teamB,
        ¬ distance p.position ⟨FIELD_WIDTH / 2, FIELD_HEIGHT / 2⟩ ≤ POSSESSION_DISTANCE) →
      (FIELD_WIDTH - BALL_RADIUS ≤ (stepFreeBall w''.ball).position.x ∧
        FIELD_HEIGHT / 2 - GOAL_WIDTH / 2 ≤ (stepFreeBall w''.ball).position.y ∧
        (stepFreeBall w''.ball).position.y ≤ FIELD_HEIGHT / 2 + GOAL_WIDTH / 2) →
      w''.config.goalsToWin ≤ w''.score.teamA + 1 →
      (simulate w'' now'').1.status = GameStatus.finished ∧
      (simulate w'' now'').1.winner = some TeamId.A ∧
      (simulate w'' now'').1.finishedAt = some now'') := by
  refine ⟨?_, ?_, ?_⟩
  · intro h
    have hcond : w.status ≠ GameStatus.playing := by
      rw [h]
      intro hc
      exact GameStatus.noConfusion hc
    have hmove : movePlayerRun w pid tx ty spm now =
        (w, false, MoveRes.failure "Game not in progress") := by
      unfold movePlayerRun
      rw [if_pos hcond]
    have hpass : passBallRun w pid tpid spp now =
        (w, false, BallActionRes.failure "Game not in progress") := by
      unfold passBallRun
      rw [if_pos hcond]
    have hshoot : shootRun w pid sps now =
        (w, false, BallActionRes.failure "Game not in progress") := by
      unfold shootRun
      rw [if_pos hcond]
    have htackle : tackleRun w pid tpid rnd dx dy now =
        (w, false, TackleRes.failure "Game not in progress") := by
      unfold tackleRun
      rw [if_pos hcond]
    refine ⟨?_, hmove, hpass, hshoot, htackle, ?_, ?_, ?_, ?_⟩
    · rcases simulate_finished_cases now h with he | he <;> rw [he] <;> exact h
    · simp [movePlayerPersisted, hmove, persistIf]
    · simp [passBallPersisted, hpass, persistIf]
    · simp [shootPersisted, hshoot, persistIf]
    · simp [tacklePersisted, htackle, persistIf]
  · intro h1 h2 h3 h4 h5 h6 h7
    have heq := leftGoalTick w' now' h1 h2 h3 h4 h5 h6
    obtain ⟨hsb, hsa, hbp, hbv, hbposs, htA, htB, hver, hcfg, hnw, hwin⟩ :=
      goalFinishA_fields { w' with ball := stepFreeBall w'.ball } now'
    rw [heq]
    exact ⟨(hwin h7).1, (hwin h7).2.1, (hwin h7).2.2⟩
  · intro h1 h2 h3 h4 h5 h6 h7
    have heq := rightGoalTick w'' now'' h1 h2 h3 h4 h5 h6
    obtain ⟨hsa, hsb, hbp, hbv, hbposs, htB, htA, hver, hcfg, hnw, hwin⟩ :=
      goalFinishB_fields { w'' with ball := stepFreeBall w''.ball } now''
    rw [heq]
    exact ⟨(hwin h7).1, (hwin h7).2.1, (hwin h7).2.2⟩

/-- C5 witness: the terminal-state clauses instantiated at the concrete
finished world wfin, and the win transitions at wgoalWin (goalsToWin 1,
ball about to cross the left end line, team B wins) and at wgoalWinR
(right end line, team A wins). -/
theorem C5_finished_terminal_witness :
    ((simulate wfin 600).1.status = GameStatus.finished ∧
      movePlayerRun wfin "a1" 0 0 none 600 =
        (wfin, false, MoveRes.failure "Game not in progress") ∧
      passBallRun wfin "a1" "b1" none 600 =
        (wfin, false, BallActionRes.failure "Game not in progress") ∧
      shootRun wfin "a1" none 600 =
        (wfin, false, BallActionRes.failure "Game not in progress") ∧
      tackleRun wfin "a1" "b1" true 1 0 600 =
        (wfin, false, TackleRes.failure "Game not in progress") ∧
      movePlayerPersisted wfin "a1" 0 0 none 600 = wfin ∧
      passBallPersisted wfin "a1" "b1" none 600 = wfin ∧
      shootPersisted wfin "a1" none 600 = wfin ∧
      tacklePersisted wfin "a1" "b1" true 1 0 600 = wfin) ∧
    ((simulate wgoalWin 50).1.status = GameStatus.finished ∧
      (simulate wgoalWin 50).1.winner = some TeamId.B ∧
      (simulate wgoalWin 50).1.finishedAt = some 50) ∧
    ((simulate wgoalWinR 50).1.status = GameStatus.finished ∧
      (simulate wgoalWinR 50).1.winner = some TeamId.A ∧
      (simulate wgoalWinR 50).1.finishedAt = some 50) :=
  ⟨(C5_finished_terminal wfin wgoalWin wgoalWinR 600 50 50
      "a1" "b1" 0 0 none none none true 1 0).1 rfl,
   (C5_finished_terminal wfin wgoalWin wgoalWinR 600 50 50
      "a1" "b1" 0 0 none none none true 1 0).2.1
     rfl (by decide) rfl (by decide) (by decide) (by decide) (by decide),
   (C5_finished_terminal wfin wgoalWin wgoalWinR 600 50 50
      "a1" "b1" 0 0 none none none true 1 0).2.2
     rfl (by decide) rfl (by decide) (by decide) (by decide) (by decide)⟩

theorem movePlayerRun_flag (g : GameState) (pid : String) (tx ty : ℚ) (sp : Option ℚ)
    (now : ℕ) :
    (movePlayerRun g pid tx ty sp now).2.1 =
      !(movePlayerRun g pid tx ty sp now).2.2.isFail := by
  simp only [movePlayerRun, moveFinish]
  repeat' split
  all_goals rfl

theorem passBallRun_flag (g : GameState) (pid tpid : String) (sp : Option ℚ) (now : ℕ) :
    (passBallRun g pid tpid sp now).2.1 = !(passBallRun g pid tpid sp now).2.2.isFail := by
  simp only [passBallRun, passFinish]
  repeat' split
  all_goals rfl

theorem shootRun_flag (g : GameState) (pid : String) (sp : Option ℚ) (now : ℕ) :
    (shootRun g pid sp now).2.1 = !(shootRun g pid sp now).2.2.isFail := by
  simp only [shootRun, shootFinish]
  repeat' split
  all_goals rfl

theorem tackleRun_flag (g : GameState) (pid tpid : String) (rnd : Bool) (dx dy : ℚ)
    (now : ℕ) :
    (tackleRun g pid tpid rnd dx dy now).2.1 =
      !(tackleRun g pid tpid rnd dx dy now).2.2.isFail := by
  simp only [tackleRun]
  repeat' split
  all_goals rfl

/-- C6: whenever an action handler returns a failure result, the
persisted world record is the stored record itself — no field is mutated
and version is not advanced (game.save() is never reached on a failure
path, so the in-memory mutations of the failing call are discarded). -/
theorem C6_fail_no_mutation (g : GameState) (pid tpid : String) (tx ty : ℚ)
    (spm spp sps : Option ℚ) (rnd : Bool) (dx dy : ℚ) (now : ℕ) :
    ((movePlayerRun g pid tx ty spm now).2.2.isFail = true →
      movePlayerPersisted g pid tx ty spm now = g) ∧
    ((passBallRun g pid tpid spp now).2.2.isFail = true →
      passBallPersisted g pid tpid spp now = g) ∧
    ((shootRun g pid sps now).2.2.isFail = true → shootPersisted g pid sps now = g) ∧
    ((tackleRun g pid tpid rnd dx dy now).2.2.isFail = true →
      tacklePersisted g pid tpid rnd dx dy now = g) := by
  refine ⟨fun h => ?_, fun h => ?_, fun h => ?_, fun h => ?_⟩
  · have hf := movePlayerRun_flag g pid tx ty spm now
    rw [h] at hf
    simp only [movePlayerPersisted, persistIf, hf]
    simp
  · have hf := passBallRun_flag g pid tpid spp now
    rw [h] at hf
    simp only [passBallPersisted, persistIf, hf]
    simp
  · have hf := shootRun_flag g pid sps now
    rw [h] at hf
    simp only [shootPersisted, persistIf, hf]
    simp
  · have hf := tackleRun_flag g pid tpid rnd dx dy now
    rw [h] at hf
    simp only [tacklePersisted, persistIf, hf]
    simp

/-- C6 witness: all four handlers fail on the finished world wfin (status
check), and the persisted record is wfin unchanged. -/
theorem C6_fail_no_mutation_witness :
    ((movePlayerRun wfin "a1" 9 9 none 700).2.2.isFail = true ∧
      movePlayerPersisted wfin "a1" 9 9 none 700 = wfin) ∧
    ((passBallRun wfin "a1" "b1" none 700).2.2.isFail = true ∧
      passBallPersisted wfin "a1" "b1" none 700 = wfin) ∧
    ((shootRun wfin "a1" none 700).2.2.isFail = true ∧
      shootPersisted wfin "a1" none 700 = wfin) ∧
    ((tackleRun wfin "a1" "b1" false 0 1 700).2.2.isFail = true ∧
      tacklePersisted wfin "a1" "b1" false 0 1 700 = wfin) :=
  ⟨⟨by decide,
    (C6_fail_no_mutation wfin "a1" "b1" 9 9 none none none false 0 1 700).1 (by decide)⟩,
   ⟨by decide,
    (C6_fail_no_mutation wfin "a1" "b1" 9 9 none none none false 0 1 700).2.1 (by decide)⟩,
   ⟨by decide,
    (C6_fail_no_mutation wfin "a1" "b1" 9 9 none none none false 0 1 700).2.2.1 (by decide)⟩,
   ⟨by decide,
    (C6_fail_no_mutation wfin "a1" "b1" 9 9 none none none false 0 1 700).2.2.2 (by decide)⟩⟩

set_option maxHeartbeats 2000000 in
set_option maxRecDepth 20000 in
/-- C1 counterexample: on the concrete playing world cexW (lastUpdate 0,
rolling free ball), two sequential simulate calls at 50 and 100 give a
different final state from the single call at 100 — simulate does not
catch up on elapsed intervals. -/
theorem C1_counterexample :
    cexW.lastUpdate = 0 ∧
      (simulate (simulate cexW (0 + 1 * SIMULATION_STEP)).1 (0 + 2 * SIMULATION_STEP)).1.ball.position ≠
        (simulate cexW (0 + 2 * SIMULATION_STEP)).1.ball.position := by decide

/-- C1 (amended): simulate runs at most ONE tick per call, not a catch-up
loop.  For a playing world with lastUpdate = t and any call time
t + N·SIMULATION_STEP (N ≥ 1), the call runs exactly one physics tick and
stamps lastUpdate := now; for a call earlier than one SIMULATION_STEP the
world is returned unchanged with a false stateChanged flag. -/
theorem C1_single_tick (w : GameState) (t N : ℕ) (hst : w.status = GameStatus.playing)
    (hlu : w.lastUpdate = t) (hN : 1 ≤ N) :
    simulate w (t + N * SIMULATION_STEP) =
      ({ (tickPhysics w (t + N * SIMULATION_STEP) false).1 with
          lastUpdate := t + N * SIMULATION_STEP },
       (tickPhysics w (t + N * SIMULATION_STEP) false).2) ∧
    ∀ m : ℕ, m < SIMULATION_STEP → simulate w (t + m) = (w, false) := by
  constructor
  · refine simulate_tick hst ?_
    rw [hlu]
    simp only [SIMULATION_STEP]
    push_cast
    omega
  · intro m hm
    refine simulate_skip ?_
    rw [hlu]
    simp only [SIMULATION_STEP] at hm ⊢
    push_cast
    omega

/-- C1 witness: the amended single-tick law instantiated at cexW with
N = 2 elapsed intervals. -/
theorem C1_single_tick_witness :
    cexW.status = GameStatus.playing ∧ cexW.lastUpdate = 0 ∧ (1 : ℕ) ≤ 2 ∧
      simulate cexW (0 + 2 * SIMULATION_STEP) =
        ({ (tickPhysics cexW (0 + 2 * SIMULATION_STEP) false).1 with
            lastUpdate := 0 + 2 * SIMULATION_STEP },
         (tickPhysics cexW (0 + 2 * SIMULATION_STEP) false).2) :=
  ⟨rfl, rfl, by decide, (C1_single_tick cexW 0 2 rfl rfl (by decide)).1⟩

/-- C2: evaluation at the failing input.  In c2W the passer "P" has just
released a pass (ball velocity nonzero, lastTouchPlayerId = "P", no
possessor) and is the only player within POSSESSION_DISTANCE of the ball;
the moving ball is far from stopped at claim time.  The spec's claim
condition (ball nearly stopped OR different player from lastTouchedBy)
is false for "P", yet the tick at 50 hands possession straight back to
"P" and zeroes the ball's velocity: the code checks only the distance. -/
theorem C2_passer_reclaims :
    c2W.ball.velocity ≠ ⟨0, 0⟩ ∧
    c2W.ball.lastTouchPlayerId = some "P" ∧
    c2W.ball.possessionPlayerId = none ∧
    distance ⟨600, 400⟩ (stepFreeBall c2W.ball).position ≤ POSSESSION_DISTANCE ∧
    ¬ sqrtQ ((stepFreeBall c2W.ball).velocity.vx ^ 2 +
        (stepFreeBall c2W.ball).velocity.vy ^ 2) ≤ 1 / 2 ∧
    (simulate c2W 50).1.ball.possessionPlayerId = some "P" ∧
    (simulate c2W 50).1.ball.velocity = ⟨0, 0⟩ := by decide

/-- C9 counterexample: in the playing world c9W the player "m" exists,
the cooldown has elapsed, and no speed is passed, yet movePlayer aimed at
the player's own position fails with "Already at target position" and
does not save — the claim as stated (every such call succeeds) is false;
a target at least 1 unit away is also required. -/
theorem C9_counterexample :
    c9W.status = GameStatus.playing ∧
    (findPlayer (simulate c9W 0).1 "m").map (fun p => cooldownActive p 0 MOVE_COOLDOWN) =
      some false ∧
    (movePlayerRun c9W "m" 600 400 none 0).2.2 =
      MoveRes.failure "Already at target position" ∧
    (movePlayerRun c9W "m" 600 400 none 0).2.1 = false := by decide

/-- C9 (amended): for a playing game, an existing player whose cooldown
has elapsed, an optional speed within [MIN_PLAYER_SPEED,
MAX_PLAYER_SPEED], and a clamped target at least 1 unit from the player,
movePlayer succeeds: it saves, returns {position, targetPosition =
clamped target, distance, speed}, sets player.speed if given, sets
targetPosition to the clamped target, stamps lastActionTime := now, and
bumps version by one. -/
theorem C9_move_success (g : GameState) (pid : String) (tx ty : ℚ) (sp : Option ℚ)
    (now : ℕ) (player : Player)
    (hst : g.status = GameStatus.playing)
    (hfind : findPlayer (simulate g now).1 pid = some player)
    (hcd : cooldownActive player now MOVE_COOLDOWN = false)
    (hsp : match sp with
      | some v => MIN_PLAYER_SPEED ≤ v ∧ v ≤ MAX_PLAYER_SPEED
      | none => True)
    (hdist : 1 ≤ sqrtQ
      ((clamp PLAYER_RADIUS (FIELD_WIDTH - PLAYER_RADIUS) tx - player.position.x) *
        (clamp PLAYER_RADIUS (FIELD_WIDTH - PLAYER_RADIUS) tx - player.position.x) +
       (clamp PLAYER_RADIUS (FIELD_HEIGHT - PLAYER_RADIUS) ty - player.position.y) *
        (clamp PLAYER_RADIUS (FIELD_HEIGHT - PLAYER_RADIUS) ty - player.position.y))) :
    (movePlayerRun g pid tx ty sp now).2.1 = true ∧
    (movePlayerRun g pid tx ty sp now).2.2 =
      MoveRes.success player.position
        ⟨clamp PLAYER_RADIUS (FIELD_WIDTH - PLAYER_RADIUS) tx,
         clamp PLAYER_RADIUS (FIELD_HEIGHT - PLAYER_RADIUS) ty⟩
        (jsRound (sqrtQ
          ((clamp PLAYER_RADIUS (FIELD_WIDTH - PLAYER_RADIUS) tx - player.position.x) *
            (clamp PLAYER_RADIUS (FIELD_WIDTH - PLAYER_RADIUS) tx - player.position.x) +
           (clamp PLAYER_RADIUS (FIELD_HEIGHT - PLAYER_RADIUS) ty - player.position.y) *
            (clamp PLAYER_RADIUS (FIELD_HEIGHT - PLAYER_RADIUS) ty - player.position.y))))
        (jsOrQ (match sp with | some v => some v | none => player.speed) PLAYER_SPEED) ∧
    findPlayer (movePlayerRun g pid tx ty sp now).1 pid =
      some { (match sp with
              | some v => { player with speed := some v }
              | none => player : Player) with
             targetPosition := some
               ⟨clamp PLAYER_RADIUS (FIELD_WIDTH - PLAYER_RADIUS) tx,
                clamp PLAYER_RADIUS (FIELD_HEIGHT - PLAYER_RADIUS) ty⟩,
             lastActionTime := some now } ∧
    (movePlayerRun g pid tx ty sp now).1.version = (simulate g now).1.version + 1 ∧
    movePlayerPersisted g pid tx ty sp now = (movePlayerRun g pid tx ty sp now).1 := by
  have hplaying : ¬ (g.status ≠ GameStatus.playing) := by
    rw [hst]
    simp
  rcases sp with _ | v
  · simp only [movePlayerRun, moveFinish, movePlayerPersisted, persistIf, hfind, hcd,
      if_neg hplaying]
    rw [if_neg (not_lt.mpr hdist)]
    refine ⟨rfl, rfl, ?_, rfl, rfl⟩
    exact @findPlayer_updatePlayer _ _
      (fun p => { p with
        targetPosition := some
          ⟨clamp PLAYER_RADIUS (FIELD_WIDTH - PLAYER_RADIUS) tx,
           clamp PLAYER_RADIUS (FIELD_HEIGHT - PLAYER_RADIUS) ty⟩,
        lastActionTime := some now })
      _ (fun q => rfl) hfind
  · obtain ⟨hlo, hhi⟩ := hsp
    simp only [movePlayerRun, moveFinish, movePlayerPersisted, persistIf, hfind, hcd,
      if_neg hplaying, if_neg (not_lt.mpr hlo), if_neg (not_lt.mpr hhi)]
    rw [if_neg (not_lt.mpr hdist)]
    refine ⟨rfl, rfl, ?_, rfl, rfl⟩
    exact @findPlayer_updatePlayer _ _
      (fun p => { p with
        targetPosition := some
          ⟨clamp PLAYER_RADIUS (FIELD_WIDTH - PLAYER_RADIUS) tx,
           clamp PLAYER_RADIUS (FIELD_HEIGHT - PLAYER_RADIUS) ty⟩,
        lastActionTime := some now })
      _ (fun q => rfl)
      (@findPlayer_updatePlayer _ _ (fun p => { p with speed := some v }) _
        (fun q => rfl) hfind)

/-- C9 witness: the amended move-success theorem instantiated at c9W with
target (700, 400), one hundred units from the player. -/
theorem C9_move_success_witness :
    (1 : ℚ) ≤ sqrtQ
      ((clamp PLAYER_RADIUS (FIELD_WIDTH - PLAYER_RADIUS) 700 - (600 : ℚ)) *
        (clamp PLAYER_RADIUS (FIELD_WIDTH - PLAYER_RADIUS) 700 - (600 : ℚ)) +
       (clamp PLAYER_RADIUS (FIELD_HEIGHT - PLAYER_RADIUS) 400 - (400 : ℚ)) *
        (clamp PLAYER_RADIUS (FIELD_HEIGHT - PLAYER_RADIUS) 400 - (400 : ℚ))) ∧
    (movePlayerRun c9W "m" 700 400 none 0).2.1 = true ∧
    findPlayer (movePlayerRun c9W "m" 700 400 none 0).1 "m" =
      some { mkPlayer "m" "mover" TeamId.A PlayerRole.striker 600 400 with
             targetPosition := some
               ⟨clamp PLAYER_RADIUS (FIELD_WIDTH - PLAYER_RADIUS) 700,
                clamp PLAYER_RADIUS (FIELD_HEIGHT - PLAYER_RADIUS) 400⟩,
             lastActionTime := some 0 } ∧
    (movePlayerRun c9W "m" 700 400 none 0).1.version = (simulate c9W 0).1.version + 1 :=
  have h := C9_move_success c9W "m" 700 400 none 0
    (mkPlayer "m" "mover" TeamId.A PlayerRole.striker 600 400)
    rfl (by decide) (by decide) trivial (by decide)
  ⟨by decide, h.1, h.2.2.1, h.2.2.2.1⟩

/-- C10: passBall accepts the passer as their own target.  For a playing
game where the player holds the ball and the pass cooldown has elapsed, a
pass whose targetPlayerId equals playerId succeeds (the same-team check
compares the player with themselves): it saves, releases possession
(possessionPlayerId cleared, hasBall cleared), increments the passes
stat, stamps lastActionTime, bumps version by one, and — the distance to
the target being zero — leaves the ball's velocity untouched; on a
reachable world that velocity is zero, so the ball is dropped stationary
at the passer. -/
theorem C10_self_pass (g : GameState) (pid : String) (now : ℕ) (player : Player)
    (hst : g.status = GameStatus.playing)
    (hfind : findPlayer (simulate g now).1 pid = some player)
    (hhas : player.hasBall = true)
    (hposs : (simulate g now).1.ball.possessionPlayerId = some pid)
    (hcd : cooldownActive player now PASS_COOLDOWN = false) :
    (passBallRun g pid pid none now).2.1 = true ∧
    (passBallRun g pid pid none now).2.2 =
      BallActionRes.success (simulate g now).1.ball.velocity PASS_SPEED ∧
    (passBallRun g pid pid none now).1.ball.velocity = (simulate g now).1.ball.velocity ∧
    (passBallRun g pid pid none now).1.ball.possessionPlayerId = none ∧
    findPlayer (passBallRun g pid pid none now).1 pid =
      some { player with
             hasBall := false,
             stats := { player.stats with passes := player.stats.passes + 1 },
             lastActionTime := some now } ∧
    (passBallRun g pid pid none now).1.version = (simulate g now).1.version + 1 ∧
    (Reachable g → (passBallRun g pid pid none now).1.ball.velocity = ⟨0, 0⟩) := by
  have hplaying : ¬ (g.status ≠ GameStatus.playing) := by
    rw [hst]
    simp
  have hno : ¬ (player.hasBall = false ∨
      (simulate g now).1.ball.possessionPlayerId ≠ some pid) := by
    rw [hhas, hposs]
    simp
  have hteam : ¬ (player.team ≠ player.team) := by simp
  have hz : (player.position.x - player.position.x) *
      (player.position.x - player.position.x) +
      (player.position.y - player.position.y) *
      (player.position.y - player.position.y) = 0 := by
    simp
  have hdist : ¬ sqrtQ ((player.position.x - player.position.x) *
      (player.position.x - player.position.x) +
      (player.position.y - player.position.y) *
      (player.position.y - player.position.y)) > 0 := by
    rw [hz]
    simp [sqrtQ]
  simp only [passBallRun, passFinish, hfind, hcd, if_neg hplaying, if_neg hno,
    if_neg hteam]
  rw [if_neg hdist]
  refine ⟨rfl, rfl, rfl, rfl, ?_, rfl, ?_⟩
  · exact @findPlayer_updatePlayer _ _
      (fun p => { p with
        hasBall := false,
        stats := { p.stats with passes := p.stats.passes + 1 },
        lastActionTime := some now })
      _ (fun q => rfl) hfind
  · intro hr
    have hv := (reachable_inv (Reachable.step now hr)).2.2.2
    exact hv (by rw [hposs]; exact fun hc => Option.noConfusion hc)

/-- C10 witness: sam passes to sam in c10W — the pass succeeds, sam
releases the ball, the passes stat rises, and the ball stays put with its
(zero) velocity unchanged. -/
theorem C10_self_pass_witness :
    (passBallRun c10W "s" "s" none 0).2.1 = true ∧
    (passBallRun c10W "s" "s" none 0).2.2 =
      BallActionRes.success (simulate c10W 0).1.ball.velocity PASS_SPEED ∧
    (passBallRun c10W "s" "s" none 0).1.ball.velocity =
      (simulate c10W 0).1.ball.velocity ∧
    (passBallRun c10W "s" "s" none 0).1.ball.possessionPlayerId = none ∧
    findPlayer (passBallRun c10W "s" "s" none 0).1 "s" =
      some { mkPlayer "s" "sam" TeamId.A PlayerRole.striker 500 300 with
             hasBall := false,
             stats := ⟨0, 0, 1, 0⟩,
             lastActionTime := some 0 } ∧
    (passBallRun c10W "s" "s" none 0).1.version = (simulate c10W 0).1.version + 1 ∧
    (Reachable c10W → (passBallRun c10W "s" "s" none 0).1.ball.velocity = ⟨0, 0⟩) :=
  C10_self_pass c10W "s" 0
    { mkPlayer "s" "sam" TeamId.A PlayerRole.striker 500 300 with hasBall := true }
    rfl (by decide) rfl (by decide) (by decide)

end Arena
